import Mathlib

/-!
Verification of the aws-coveo-workshop-stackset repository's core logic:
the SSE event parser and streaming answer decoder
(src/lambdas/answering_proxy/lambda_function.py), the MCP generate_answer
streaming loop (src/coveo-mcp-server/coveo_api.py), the MCP tool guards
(src/coveo-mcp-server/mcp_server.py), and the agent entrypoint with its
response cleaning, identity resolution, source extraction/dedup/validation
and memory bridging (src/coveo-agent/app.py).

Python strings are embedded as lists of characters (`Str`); Python dicts,
lists and JSON values as the `Json` inductive; exceptions as `Except Unit`.
The Python standard library's json.loads/json.dumps are modelled by an
executable JSON grammar over `Str` (integer and fractional number literals
are kept as their lexeme; the non-standard NaN/Infinity literals and
\u-surrogate-pair combining that CPython additionally accepts are omitted,
no claim touches them).
-/

/-- Python strings, embedded as lists of characters. -/
abbrev Str := List Char

/-- The whitespace set of Python's str.strip() / re's \s (ASCII part). -/
def pyIsSpace (c : Char) : Bool :=
  c == ' ' || c == '\t' || c == '\n' || c == '\r' || c == '\x0b' || c == '\x0c'

/-- Python str.strip(): drop leading and trailing whitespace. -/
def pyStrip (s : Str) : Str :=
  ((s.dropWhile pyIsSpace).reverse.dropWhile pyIsSpace).reverse

/-- Python str.startswith. -/
def pyStartsWith (pre s : Str) : Bool :=
  pre.isPrefixOf s

/-- Python str.split for a single-newline separator: '\n'-separated pieces.
"".split gives [""], and a trailing newline yields a trailing empty piece,
exactly as in Python. -/
def splitLines : Str → List Str
  | [] => [[]]
  | c :: rest =>
    if c = '\n' then [] :: splitLines rest
    else
      match splitLines rest with
      | [] => [[c]]
      | l :: ls => (c :: l) :: ls

/-- First index whose character satisfies p. -/
def findIdxO (p : Char → Bool) : Str → Option Nat
  | [] => none
  | c :: t => if p c then some 0 else (findIdxO p t).map (· + 1)

/-- Python str.replace(pat, rep): replace every non-overlapping occurrence,
scanning left to right (fuel-based; the wrapper passes enough fuel). -/
def replaceAllF (pat rep : Str) : Nat → Str → Str
  | 0, s => s
  | _ + 1, [] => []
  | fuel + 1, c :: t =>
    if pyStartsWith pat (c :: t) && !pat.isEmpty then
      rep ++ replaceAllF pat rep fuel ((c :: t).drop pat.length)
    else
      c :: replaceAllF pat rep fuel t

/-- Python str.replace(pat, rep) for a non-empty pattern. -/
def replaceAll (pat rep s : Str) : Str :=
  replaceAllF pat rep (s.length + 1) s

/-- ASCII lower-casing, for the re.IGNORECASE matching of fixed tag names. -/
def lowerAscii (c : Char) : Char :=
  if 'A' ≤ c && c ≤ 'Z' then Char.ofNat (c.toNat + 32) else c

/-- Case-insensitive literal match of pat at the start of s. -/
def ciStarts (pat s : Str) : Bool :=
  pyStartsWith (pat.map lowerAscii) (s.map lowerAscii)

/-- First index at which pat occurs case-insensitively in s. -/
def findCI (pat : Str) : Str → Option Nat
  | [] => if pat.isEmpty then some 0 else none
  | c :: t => if ciStarts pat (c :: t) then some 0 else (findCI pat t).map (· + 1)

/- ===================== SSE event parser =====================
   src/lambdas/answering_proxy/lambda_function.py, parse_sse_events
   (lines 363..412). -/

/-- One parsed SSE event: the keys the Python dict current_event can hold.
A field is some v exactly when the corresponding key has been assigned. -/
structure SSEEvent where
  event : Option Str
  data : Option Str
  id : Option Str
  retry : Option Str
deriving DecidableEq

/-- The empty accumulator dict current_event = {}. -/
def SSEEvent.blank : SSEEvent := ⟨none, none, none, none⟩

/-- Python dict truthiness of current_event: empty means no key assigned. -/
def SSEEvent.isClear (e : SSEEvent) : Bool :=
  e.event.isNone && e.data.isNone && e.id.isNone && e.retry.isNone

/-- One loop iteration of parse_sse_events: strip the line, flush the
current event on a blank line, otherwise dispatch on the recognized
field names, ignoring unrecognized lines. -/
def sseLine (st : List SSEEvent × SSEEvent) (rawLine : Str) : List SSEEvent × SSEEvent :=
  let line := pyStrip rawLine
  if line = [] then
    if st.2.isClear then st else (st.1 ++ [st.2], SSEEvent.blank)
  else if pyStartsWith "event:".data line then
    (st.1, { st.2 with event := some (pyStrip (line.drop 6)) })
  else if pyStartsWith "data:".data line then
    let d := pyStrip (line.drop 5)
    match st.2.data with
    | some old => (st.1, { st.2 with data := some (old ++ '\n' :: d) })
    | none => (st.1, { st.2 with data := some d })
  else if pyStartsWith "id:".data line then
    (st.1, { st.2 with id := some (pyStrip (line.drop 3)) })
  else if pyStartsWith "retry:".data line then
    (st.1, { st.2 with retry := some (pyStrip (line.drop 6)) })
  else st

/-- The loop of parse_sse_events over all lines of the input. -/
def sseFold (s : Str) : List SSEEvent × SSEEvent :=
  (splitLines s).foldl sseLine ([], SSEEvent.blank)

/-- parse_sse_events: run the loop, then flush a pending non-empty event
once at end of input. -/
def parse_sse_events (s : Str) : List SSEEvent :=
  let st := sseFold s
  if st.2.isClear then st.1 else st.1 ++ [st.2]

/- ===================== JSON values =====================
   The value universe of Python's json module, as used by the decoders.
   Numbers keep their source lexeme (they are never inspected numerically
   by the code under verification). -/

/-- A parsed JSON value / the Python objects json.loads produces. -/
inductive Json where
  | null
  | bool (b : Bool)
  | num (lex : Str)
  | str (s : Str)
  | arr (elems : List Json)
  | obj (entries : List (Str × Json))

mutual

def jsonDecEq : (a b : Json) → Decidable (a = b)
  | .null, .null => .isTrue rfl
  | .bool x, .bool y =>
    match decEq x y with
    | .isTrue h => .isTrue (by rw [h])
    | .isFalse h => .isFalse (fun he => h (Json.bool.inj he))
  | .num x, .num y =>
    match decEq x y with
    | .isTrue h => .isTrue (by rw [h])
    | .isFalse h => .isFalse (fun he => h (Json.num.inj he))
  | .str x, .str y =>
    match decEq x y with
    | .isTrue h => .isTrue (by rw [h])
    | .isFalse h => .isFalse (fun he => h (Json.str.inj he))
  | .arr xs, .arr ys =>
    match jsonListDecEq xs ys with
    | .isTrue h => .isTrue (by rw [h])
    | .isFalse h => .isFalse (fun he => h (Json.arr.inj he))
  | .obj xs, .obj ys =>
    match jsonEntriesDecEq xs ys with
    | .isTrue h => .isTrue (by rw [h])
    | .isFalse h => .isFalse (fun he => h (Json.obj.inj he))
  | .null, .bool _ => .isFalse (fun h => Json.noConfusion h)
  | .null, .num _ => .isFalse (fun h => Json.noConfusion h)
  | .null, .str _ => .isFalse (fun h => Json.noConfusion h)
  | .null, .arr _ => .isFalse (fun h => Json.noConfusion h)
  | .null, .obj _ => .isFalse (fun h => Json.noConfusion h)
  | .bool _, .null => .isFalse (fun h => Json.noConfusion h)
  | .bool _, .num _ => .isFalse (fun h => Json.noConfusion h)
  | .bool _, .str _ => .isFalse (fun h => Json.noConfusion h)
  | .bool _, .arr _ => .isFalse (fun h => Json.noConfusion h)
  | .bool _, .obj _ => .isFalse (fun h => Json.noConfusion h)
  | .num _, .null => .isFalse (fun h => Json.noConfusion h)
  | .num _, .bool _ => .isFalse (fun h => Json.noConfusion h)
  | .num _, .str _ => .isFalse (fun h => Json.noConfusion h)
  | .num _, .arr _ => .isFalse (fun h => Json.noConfusion h)
  | .num _, .obj _ => .isFalse (fun h => Json.noConfusion h)
  | .str _, .null => .isFalse (fun h => Json.noConfusion h)
  | .str _, .bool _ => .isFalse (fun h => Json.noConfusion h)
  | .str _, .num _ => .isFalse (fun h => Json.noConfusion h)
  | .str _, .arr _ => .isFalse (fun h => Json.noConfusion h)
  | .str _, .obj _ => .isFalse (fun h => Json.noConfusion h)
  | .arr _, .null => .isFalse (fun h => Json.noConfusion h)
  | .arr _, .bool _ => .isFalse (fun h => Json.noConfusion h)
  | .arr _, .num _ => .isFalse (fun h => Json.noConfusion h)
  | .arr _, .str _ => .isFalse (fun h => Json.noConfusion h)
  | .arr _, .obj _ => .isFalse (fun h => Json.noConfusion h)
  | .obj _, .null => .isFalse (fun h => Json.noConfusion h)
  | .obj _, .bool _ => .isFalse (fun h => Json.noConfusion h)
  | .obj _, .num _ => .isFalse (fun h => Json.noConfusion h)
  | .obj _, .str _ => .isFalse (fun h => Json.noConfusion h)
  | .obj _, .arr _ => .isFalse (fun h => Json.noConfusion h)

def jsonListDecEq : (a b : List Json) → Decidable (a = b)
  | [], [] => .isTrue rfl
  | [], _ :: _ => .isFalse (fun h => List.noConfusion h)
  | _ :: _, [] => .isFalse (fun h => List.noConfusion h)
  | x :: xs, y :: ys =>
    match jsonDecEq x y with
    | .isFalse h => .isFalse (fun he => h (List.cons.inj he).1)
    | .isTrue h1 =>
      match jsonListDecEq xs ys with
      | .isTrue h2 => .isTrue (by rw [h1, h2])
      | .isFalse h => .isFalse (fun he => h (List.cons.inj he).2)

def jsonEntriesDecEq : (a b : List (Str × Json)) → Decidable (a = b)
  | [], [] => .isTrue rfl
  | [], _ :: _ => .isFalse (fun h => List.noConfusion h)
  | _ :: _, [] => .isFalse (fun h => List.noConfusion h)
  | (k1, v1) :: xs, (k2, v2) :: ys =>
    match decEq k1 k2 with
    | .isFalse h => .isFalse (fun he => h (Prod.mk.inj (List.cons.inj he).1).1)
    | .isTrue hk =>
      match jsonDecEq v1 v2 with
      | .isFalse h => .isFalse (fun he => h (Prod.mk.inj (List.cons.inj he).1).2)
      | .isTrue hv =>
        match jsonEntriesDecEq xs ys with
        | .isTrue h2 => .isTrue (by rw [hk, hv, h2])
        | .isFalse h => .isFalse (fun he => h (List.cons.inj he).2)

end

instance : DecidableEq Json := jsonDecEq

/-- Python dict .get(key) on the entries json.loads produced: the value of
the last entry with that key (on duplicate keys json.loads keeps the last). -/
def objGet (es : List (Str × Json)) (k : Str) : Option Json :=
  (es.reverse.find? (fun e => e.1 = k)).map (·.2)

/-- Python truthiness of a JSON value (bool(x)). A number is truthy exactly
when its lexeme has a non-zero digit, which matches the numeric value
being non-zero for JSON number literals. -/
def jtruthy : Json → Bool
  | .null => false
  | .bool b => b
  | .num lex => lex.any (fun c => '1' ≤ c && c ≤ '9')
  | .str s => !s.isEmpty
  | .arr l => !l.isEmpty
  | .obj es => !es.isEmpty

/-- Python `a or b` on JSON values: a when truthy, else b. -/
def pyOrJ (a b : Json) : Json := if jtruthy a then a else b

/- ===================== json.loads ===================== -/

/-- JSON's insignificant whitespace. -/
def jsonWs (c : Char) : Bool :=
  c == ' ' || c == '\t' || c == '\n' || c == '\r'

/-- Hex digit value (codepoints 48-57 are 0-9, 97-102 are a-f, 65-70 are A-F). -/
def hexVal (c : Char) : Option Nat :=
  let n := c.toNat
  if 48 ≤ n ∧ n ≤ 57 then some (n - 48)
  else if 97 ≤ n ∧ n ≤ 102 then some (n - 87)
  else if 65 ≤ n ∧ n ≤ 70 then some (n - 55)
  else none

/-- The body of a JSON string after its opening quote: returns the decoded
content and the input after the closing quote. -/
def jsonStringRest : Nat → Str → Option (Str × Str)
  | 0, _ => none
  | _ + 1, [] => none
  | fuel + 1, c :: rest =>
    if c = '"' then some ([], rest)
    else if c = '\\' then
      match rest with
      | [] => none
      | e :: rest2 =>
        if e = '"' then (jsonStringRest fuel rest2).map (fun p => ('"' :: p.1, p.2))
        else if e = '\\' then (jsonStringRest fuel rest2).map (fun p => ('\\' :: p.1, p.2))
        else if e = '/' then (jsonStringRest fuel rest2).map (fun p => ('/' :: p.1, p.2))
        else if e = 'b' then (jsonStringRest fuel rest2).map (fun p => ('\x08' :: p.1, p.2))
        else if e = 'f' then (jsonStringRest fuel rest2).map (fun p => ('\x0c' :: p.1, p.2))
        else if e = 'n' then (jsonStringRest fuel rest2).map (fun p => ('\n' :: p.1, p.2))
        else if e = 'r' then (jsonStringRest fuel rest2).map (fun p => ('\r' :: p.1, p.2))
        else if e = 't' then (jsonStringRest fuel rest2).map (fun p => ('\t' :: p.1, p.2))
        else if e = 'u' then
          match rest2 with
          | h1 :: h2 :: h3 :: h4 :: rest3 =>
            match hexVal h1, hexVal h2, hexVal h3, hexVal h4 with
            | some d1, some d2, some d3, some d4 =>
              (jsonStringRest fuel rest3).map
                (fun p => (Char.ofNat (((d1 * 16 + d2) * 16 + d3) * 16 + d4) :: p.1, p.2))
            | _, _, _, _ => none
          | _ => none
        else none
    else if c.toNat < 32 then none
    else (jsonStringRest fuel rest).map (fun p => (c :: p.1, p.2))

/-- The lexeme of a JSON number literal at the start of s, with the rest:
-? (0 | [1-9][0-9]*) (.digits)? ([eE][+-]?digits)? -/
def jsonNumLex (s : Str) : Option (Str × Str) :=
  let (sign, s1) :=
    match s with
    | '-' :: t => (['-'], t)
    | _ => (([] : Str), s)
  match s1 with
  | [] => none
  | c :: t =>
    if c = '0' then
      let intPart := [c]
      let rest := t
      let (frac, rest2) :=
        match rest with
        | '.' :: u =>
          let ds := u.takeWhile Char.isDigit
          if ds.isEmpty then (([] : Str), rest) else ('.' :: ds, u.dropWhile Char.isDigit)
        | _ => (([] : Str), rest)
      let (ex, rest3) :=
        match rest2 with
        | e :: u =>
          if e = 'e' || e = 'E' then
            let (sg, u2) :=
              match u with
              | '+' :: v => (['+'], v)
              | '-' :: v => (['-'], v)
              | _ => (([] : Str), u)
            let ds := u2.takeWhile Char.isDigit
            if ds.isEmpty then (([] : Str), rest2) else (e :: sg ++ ds, u2.dropWhile Char.isDigit)
          else (([] : Str), rest2)
        | _ => (([] : Str), rest2)
      if frac.isEmpty && !ex.isEmpty && false then none
      else some (sign ++ intPart ++ frac ++ ex, rest3)
    else if '1' ≤ c && c ≤ '9' then
      let ds := t.takeWhile Char.isDigit
      let intPart := c :: ds
      let rest := t.dropWhile Char.isDigit
      let (frac, rest2) :=
        match rest with
        | '.' :: u =>
          let fs := u.takeWhile Char.isDigit
          if fs.isEmpty then (([] : Str), rest) else ('.' :: fs, u.dropWhile Char.isDigit)
        | _ => (([] : Str), rest)
      let (ex, rest3) :=
        match rest2 with
        | e :: u =>
          if e = 'e' || e = 'E' then
            let (sg, u2) :=
              match u with
              | '+' :: v => (['+'], v)
              | '-' :: v => (['-'], v)
              | _ => (([] : Str), u)
            let es := u2.takeWhile Char.isDigit
            if es.isEmpty then (([] : Str), rest2) else (e :: sg ++ es, u2.dropWhile Char.isDigit)
          else (([] : Str), rest2)
        | _ => (([] : Str), rest2)
      some (sign ++ intPart ++ frac ++ ex, rest3)
    else none

mutual

/-- A JSON value at the start of the input (after skipping whitespace). -/
def jsonValue : Nat → Str → Option (Json × Str)
  | 0, _ => none
  | fuel + 1, s =>
    let s := s.dropWhile jsonWs
    match s with
    | [] => none
    | c :: rest =>
      if c = '\x7b' then
        let s1 := rest.dropWhile jsonWs
        match s1 with
        | '\x7d' :: r => some (.obj [], r)
        | _ => jsonMembers fuel s1
      else if c = '[' then
        let s1 := rest.dropWhile jsonWs
        match s1 with
        | ']' :: r => some (.arr [], r)
        | _ => jsonElems fuel s1
      else if c = '"' then
        (jsonStringRest (rest.length + 1) rest).map (fun p => (.str p.1, p.2))
      else if c = 't' then
        if pyStartsWith "true".data s then some (.bool true, s.drop 4) else none
      else if c = 'f' then
        if pyStartsWith "false".data s then some (.bool false, s.drop 5) else none
      else if c = 'n' then
        if pyStartsWith "null".data s then some (.null, s.drop 4) else none
      else
        (jsonNumLex s).map (fun p => (.num p.1, p.2))

/-- The members of a JSON object, positioned at a key (no leading brace). -/
def jsonMembers : Nat → Str → Option (Json × Str)
  | 0, _ => none
  | fuel + 1, s =>
    match s with
    | '"' :: rest =>
      match jsonStringRest (rest.length + 1) rest with
      | none => none
      | some (key, r1) =>
        match r1.dropWhile jsonWs with
        | ':' :: r2 =>
          match jsonValue fuel r2 with
          | none => none
          | some (v, r3) =>
            match r3.dropWhile jsonWs with
            | ',' :: r4 =>
              match jsonMembers fuel (r4.dropWhile jsonWs) with
              | some (.obj es, r5) => some (.obj ((key, v) :: es), r5)
              | _ => none
            | '\x7d' :: r4 => some (.obj [(key, v)], r4)
            | _ => none
        | _ => none
    | _ => none

/-- The elements of a JSON array, positioned at a value (no leading bracket). -/
def jsonElems : Nat → Str → Option (Json × Str)
  | 0, _ => none
  | fuel + 1, s =>
    match jsonValue fuel s with
    | none => none
    | some (v, r1) =>
      match r1.dropWhile jsonWs with
      | ',' :: r2 =>
        match jsonElems fuel r2 with
        | some (.arr es, r3) => some (.arr (v :: es), r3)
        | _ => none
      | ']' :: r2 => some (.arr [v], r2)
      | _ => none

end

/-- Python json.loads: parse one JSON document, requiring the whole input
to be consumed; none models a raised json.JSONDecodeError. -/
def json_loads (s : Str) : Option Json :=
  match jsonValue (s.length + 1) s with
  | some (j, rest) => if (rest.dropWhile jsonWs).isEmpty then some j else none
  | none => none

/- ===================== Streaming answer decoder =====================
   src/lambdas/answering_proxy/lambda_function.py, process_sse_stream
   (lines 212..360). Exceptions other than json.JSONDecodeError escape the
   per-event handlers and abort the whole stream (the outer handler
   re-raises), modelled as Except.error. -/

/-- The accumulator answer_data of process_sse_stream. The citation list
and the end-of-stream / finish-reason payload fields hold arbitrary JSON
values, as the Python dict does. -/
structure AnswerData where
  answer : Str
  answerText : Str
  response : Str
  citations : Json
  answerGenerated : Json
  responseId : Json
  finishReason : Json
deriving DecidableEq

/-- The initial answer_data dict. -/
def initAnswerData : AnswerData :=
  { answer := []
    answerText := []
    response := []
    citations := .arr []
    answerGenerated := .bool false
    responseId := .null
    finishReason := .null }

/-- Append a text delta to all three text aliases (answer, answerText,
response), as the three += lines do. -/
def AnswerData.addText (ad : AnswerData) (t : Str) : AnswerData :=
  { ad with
    answer := ad.answer ++ t
    answerText := ad.answerText ++ t
    response := ad.response ++ t }

/-- The per-citation reshaping of the genqa.citationsType branch: coalesce
clickUri/uri, read project out of nested fields (default "unknown").
A non-dict citation or a non-dict fields value raises (AttributeError),
which the surrounding handlers do not catch. -/
def normalizeCitation (c : Json) : Except Unit Json :=
  match c with
  | .obj es =>
    let title := (objGet es "title".data).getD (.str [])
    let uriVal := pyOrJ ((objGet es "clickUri".data).getD .null)
                        ((objGet es "uri".data).getD (.str []))
    match (objGet es "fields".data).getD (.obj []) with
    | .obj fs =>
      let project := (objGet fs "project".data).getD (.str "unknown".data)
      let text := (objGet es "text".data).getD (.str [])
      .ok (.obj [("title".data, title), ("uri".data, uriVal), ("clickUri".data, uriVal),
                 ("clickableuri".data, uriVal), ("project".data, project), ("text".data, text)])
    | _ => .error ()
  | _ => .error ()

/-- genqa.messageType: the payload is itself a JSON string carrying
textDelta; malformed inner JSON is skipped, a non-string payload or a
non-string truthy textDelta raises. -/
def branchMessageType (ad : AnswerData) (payload : Json) : Except Unit AnswerData :=
  if jtruthy payload then
    match payload with
    | .str p =>
      match json_loads p with
      | none => .ok ad
      | some (.obj nes) =>
        let td := (objGet nes "textDelta".data).getD (.str [])
        if jtruthy td then
          match td with
          | .str t => .ok (ad.addText t)
          | _ => .error ()
        else .ok ad
      | some _ => .error ()
    | _ => .error ()
  else .ok ad

/-- genqa.textDeltaMessageType: the payload is the delta text directly. -/
def branchTextDirect (ad : AnswerData) (payload : Json) : Except Unit AnswerData :=
  if jtruthy payload then
    match payload with
    | .str t => .ok (ad.addText t)
    | _ => .error ()
  else .ok ad

/-- genqa.citationsType: a truthy citations list replaces the accumulated
citations wholesale after reshaping; a falsy (in particular empty) list
leaves them untouched, because the assignment sits under
"if citations_list:". -/
def branchCitations (ad : AnswerData) (payload : Json) : Except Unit AnswerData :=
  if jtruthy payload then
    match payload with
    | .str p =>
      match json_loads p with
      | none => .ok ad
      | some (.obj ces) =>
        let clist := (objGet ces "citations".data).getD (.arr [])
        if jtruthy clist then
          match clist with
          | .arr cs =>
            match cs.mapM normalizeCitation with
            | .ok ncs => .ok { ad with citations := .arr ncs }
            | .error u => .error u
          | _ => .error ()
        else .ok ad
      | some _ => .error ()
    | _ => .error ()
  else .ok ad

/-- genqa.citationsMessageType: a payload that parses to a list is stored
as the citations verbatim; other parses are ignored. -/
def branchLegacyCitations (ad : AnswerData) (payload : Json) : Except Unit AnswerData :=
  if jtruthy payload then
    match payload with
    | .str p =>
      match json_loads p with
      | none => .ok ad
      | some (.arr l) => .ok { ad with citations := .arr l }
      | some _ => .ok ad
    | _ => .error ()
  else .ok ad

/-- genqa.endOfStreamType: set answerGenerated from the payload, defaulting
to true when the payload does not parse. The loop does NOT stop here. -/
def branchEndOfStream (ad : AnswerData) (payload : Json) : Except Unit AnswerData :=
  if jtruthy payload then
    match payload with
    | .str p =>
      match json_loads p with
      | none => .ok { ad with answerGenerated := .bool true }
      | some (.obj ees) =>
        .ok { ad with answerGenerated := (objGet ees "answerGenerated".data).getD (.bool true) }
      | some _ => .error ()
    | _ => .error ()
  else .ok ad

/-- genqa.headerMessageType: parsed only for logging; a truthy non-string
payload still raises in json.loads. -/
def branchHeader (ad : AnswerData) (payload : Json) : Except Unit AnswerData :=
  if jtruthy payload then
    match payload with
    | .str _ => .ok ad
    | _ => .error ()
  else .ok ad

/-- One iteration of the event loop of process_sse_stream: only message
events with truthy data are inspected; data that is not valid JSON is
skipped; after the payloadType dispatch, a truthy finishReason is stored. -/
def psssStep (ad : AnswerData) (e : SSEEvent) : Except Unit AnswerData :=
  if e.event = some "message".data ∧ e.data.getD [] ≠ [] then
    match json_loads (e.data.getD []) with
    | none => .ok ad
    | some (.obj mes) =>
      let payload_type := (objGet mes "payloadType".data).getD (.str [])
      let payload := (objGet mes "payload".data).getD (.str [])
      let step1 : Except Unit AnswerData :=
        if payload_type = .str "genqa.messageType".data then branchMessageType ad payload
        else if payload_type = .str "genqa.textDeltaMessageType".data then branchTextDirect ad payload
        else if payload_type = .str "genqa.citationsType".data then branchCitations ad payload
        else if payload_type = .str "genqa.citationsMessageType".data then branchLegacyCitations ad payload
        else if payload_type = .str "genqa.endOfStreamType".data then branchEndOfStream ad payload
        else if payload_type = .str "genqa.headerMessageType".data then branchHeader ad payload
        else .ok ad
      match step1 with
      | .error u => .error u
      | .ok ad2 =>
        match objGet mes "finishReason".data with
        | some fr => if jtruthy fr then .ok { ad2 with finishReason := fr } else .ok ad2
        | none => .ok ad2
    | some _ => .error ()
  else .ok ad

/-- process_sse_stream over an already parsed event sequence: fold the
event loop over every event of the stream (the loop has no early exit). -/
def process_sse_stream (events : List SSEEvent) : Except Unit AnswerData :=
  events.foldlM psssStep initAnswerData

/- ===================== MCP generate_answer streaming loop =====================
   src/coveo-mcp-server/coveo_api.py, generate_answer (lines 224..259):
   a line-oriented loop over the SSE body that appends text deltas,
   replaces the citations unconditionally, and breaks at end of stream. -/

/-- The loop state of generate_answer: complete_answer (a Python list of
appended textDelta values) and citations. -/
structure GAState where
  complete_answer : List Json
  citations : Json
deriving DecidableEq

/-- The state before the loop: complete_answer = [], citations = []. -/
def initGAState : GAState := { complete_answer := [], citations := .arr [] }

/-- Line preprocessing of generate_answer: skip blank lines and lines not
starting with data:, then json_data = line.replace('data:','').strip()
(note: replace removes every occurrence, not just the leading one). -/
def gaLineData (line : Str) : Option Str :=
  if pyStrip line = [] || !pyStartsWith "data:".data line then none
  else some (pyStrip (replaceAll "data:".data [] line))

/-- The outcome of one generate_answer loop iteration: continue or break. -/
inductive GAOut where
  | cont (st : GAState)
  | brk (st : GAState)
deriving DecidableEq

/-- One iteration of the generate_answer loop. json.JSONDecodeError
continues with the next line; AttributeError/TypeError on non-dict data or
non-string payloads escape the loop (the function then raises). -/
def gaStep (st : GAState) (line : Str) : Except Unit GAOut :=
  match gaLineData line with
  | none => .ok (.cont st)
  | some jd =>
    match json_loads jd with
    | none => .ok (.cont st)
    | some (.obj des) =>
      let pt := objGet des "payloadType".data
      if pt = some (.str "genqa.messageType".data) then
        match (objGet des "payload".data).getD (.str "\x7b\x7d".data) with
        | .str p =>
          match json_loads p with
          | none => .ok (.cont st)
          | some (.obj pes) =>
            let td := (objGet pes "textDelta".data).getD (.str [])
            if jtruthy td then
              .ok (.cont { st with complete_answer := st.complete_answer ++ [td] })
            else .ok (.cont st)
          | some _ => .error ()
        | _ => .error ()
      else if pt = some (.str "genqa.citationsType".data) then
        match (objGet des "payload".data).getD (.str "\x7b\x7d".data) with
        | .str p =>
          match json_loads p with
          | none => .ok (.cont st)
          | some (.obj pes) =>
            .ok (.cont { st with citations := (objGet pes "citations".data).getD (.arr []) })
          | some _ => .error ()
        | _ => .error ()
      else if pt = some (.str "genqa.endOfStreamType".data) then
        .ok (.brk st)
      else .ok (.cont st)
    | some _ => .error ()

/-- The whole generate_answer streaming loop over the response lines. -/
def gaLoop (st : GAState) : List Str → Except Unit GAState
  | [] => .ok st
  | l :: ls =>
    match gaStep st l with
    | .error u => .error u
    | .ok (.brk st2) => .ok st2
    | .ok (.cont st2) => gaLoop st2 ls

/-- A line that the generate_answer loop recognizes as the
genqa.endOfStreamType terminal signal. -/
def gaIsEos (line : Str) : Bool :=
  match gaLineData line with
  | none => false
  | some jd =>
    match json_loads jd with
    | some (.obj des) =>
      objGet des "payloadType".data = some (.str "genqa.endOfStreamType".data)
    | _ => false

/- ===================== Response cleaning =====================
   src/coveo-agent/app.py, clean_response (lines 304..315): three
   re.sub passes and a whitespace collapse, then strip. Each regex is
   hand-compiled to its exact leftmost-match, non-overlapping semantics. -/

/-- Join pieces with a separator between them. -/
def joinSep (sep : Str) : List Str → Str
  | [] => []
  | [x] => x
  | x :: y :: t => x ++ sep ++ joinSep sep (y :: t)

/-- re.sub of a literal-delimited lazy block pattern opn.*?cls with
DOTALL|IGNORECASE: repeatedly drop from the leftmost occurrence of opn to
the nearest following occurrence of cls, continuing after the match.
Fuel-based; wrappers pass enough fuel. -/
def stripBlocksCIF (opn cls : Str) : Nat → Str → Str
  | 0, s => s
  | fuel + 1, s =>
    match findCI opn s with
    | none => s
    | some i =>
      let after := s.drop (i + opn.length)
      match findCI cls after with
      | none => s
      | some j => s.take i ++ stripBlocksCIF opn cls fuel (after.drop (j + cls.length))

/-- The first two re.sub passes of clean_response for a fixed tag name. -/
def stripBlocksCI (opn cls s : Str) : Str :=
  stripBlocksCIF opn cls (s.length + 1) s

/-- The leftmost match of the regex piece <[^>]+> : the index of its '<'
and the index of its '>' (at least one non-'>' character between). -/
def findOpenTag : Str → Option (Nat × Nat)
  | [] => none
  | c :: t =>
    if c = '<' then
      match findIdxO (fun x => x = '>') t with
      | none => none
      | some g =>
        if 1 ≤ g then some (0, g + 1)
        else (findOpenTag t).map (fun p => (p.1 + 1, p.2 + 1))
    else (findOpenTag t).map (fun p => (p.1 + 1, p.2 + 1))

/-- The leftmost match of the regex piece </[^>]+> : the index of its '<'
and the index of its '>'. -/
def findCloseTag : Str → Option (Nat × Nat)
  | [] => none
  | c :: t =>
    if c = '<' then
      match t with
      | '/' :: u =>
        match u with
        | [] => none
        | x :: _ =>
          if x = '>' then (findCloseTag t).map (fun p => (p.1 + 1, p.2 + 1))
          else
            match findIdxO (fun y => y = '>') u with
            | none => none
            | some h => some (0, h + 2)
      | _ => (findCloseTag t).map (fun p => (p.1 + 1, p.2 + 1))
    else (findCloseTag t).map (fun p => (p.1 + 1, p.2 + 1))

/-- re.sub(r'<[^>]+>.*?</[^>]+>', '', s, flags=re.DOTALL): remove from each
leftmost <...> token to the nearest following </...> token (the token names
are unconstrained and need not match), continuing after the removal. -/
def stripAnyTagsF : Nat → Str → Str
  | 0, s => s
  | fuel + 1, s =>
    match findOpenTag s with
    | none => s
    | some (i, g) =>
      let after := s.drop (g + 1)
      match findCloseTag after with
      | none => s
      | some p => s.take i ++ stripAnyTagsF fuel (after.drop (p.2 + 1))

/-- The third re.sub pass of clean_response. -/
def stripAnyTags (s : Str) : Str := stripAnyTagsF (s.length + 1) s

/-- re.sub(r'\n\s*\n\s*\n+', '\n\n', s): a maximal whitespace run starting
at a newline and containing at least three newlines is replaced by two
newlines up to its last newline, scanning left to right. -/
def wsCollapseF : Nat → Str → Str
  | 0, s => s
  | _ + 1, [] => []
  | fuel + 1, c :: t =>
    if c = '\n' then
      let run := (c :: t).takeWhile pyIsSpace
      if 3 ≤ run.countP (fun x => x = '\n') then
        let lastNl := run.length - 1 - run.reverse.findIdx (fun x => x = '\n')
        '\n' :: '\n' :: wsCollapseF fuel ((c :: t).drop (lastNl + 1))
      else c :: wsCollapseF fuel t
    else c :: wsCollapseF fuel t

/-- clean_response: strip thinking and reasoning blocks (case-insensitive),
strip every remaining tag-delimited region, collapse blank-line runs, and
strip surrounding whitespace. -/
def clean_response (s : Str) : Str :=
  let s1 := stripBlocksCI "<thinking>".data "</thinking>".data s
  let s2 := stripBlocksCI "<reasoning>".data "</reasoning>".data s1
  let s3 := stripAnyTags s2
  pyStrip (wsCollapseF (s3.length + 1) s3)

/- ===================== Python str()/json.dumps rendering =====================
   Needed only where the code formats values into returned text; no claim
   inspects the rendering of containers. Characters above 0xFFFF would use
   surrogate pairs in CPython; omitted, no claim touches them. -/

mutual

def jsonSize : Json → Nat
  | .arr l => jsonListSize l + 1
  | .obj es => jsonEntriesSize es + 1
  | _ => 1

def jsonListSize : List Json → Nat
  | [] => 0
  | x :: t => jsonSize x + jsonListSize t + 1

def jsonEntriesSize : List (Str × Json) → Nat
  | [] => 0
  | e :: t => jsonSize e.2 + jsonEntriesSize t + 1

end

/-- Python repr of small values as f-strings render them via str(). -/
def pyReprF : Nat → Json → Str
  | 0, _ => []
  | _ + 1, .null => "None".data
  | _ + 1, .bool true => "True".data
  | _ + 1, .bool false => "False".data
  | _ + 1, .num lex => lex
  | _ + 1, .str s => Char.ofNat 39 :: s ++ [Char.ofNat 39]
  | fuel + 1, .arr l => '[' :: joinSep ", ".data (l.map (pyReprF fuel)) ++ [']']
  | fuel + 1, .obj es =>
    '\x7b' :: joinSep ", ".data
      (es.map (fun e => pyReprF fuel (.str e.1) ++ ": ".data ++ pyReprF fuel e.2)) ++ ['\x7d']

/-- Python str() of a JSON value, as an f-string interpolates it. -/
def pyStr (j : Json) : Str :=
  match j with
  | .str s => s
  | _ => pyReprF (jsonSize j) j

/-- A lowercase hex digit. -/
def hexDigit (n : Nat) : Char :=
  if n < 10 then Char.ofNat ('0'.toNat + n) else Char.ofNat ('a'.toNat + n - 10)

/-- Four lowercase hex digits. -/
def hex4 (n : Nat) : Str :=
  [hexDigit (n / 4096 % 16), hexDigit (n / 256 % 16), hexDigit (n / 16 % 16), hexDigit (n % 16)]

/-- json.dumps string escaping with ensure_ascii=True. -/
def jsonEscapeChar (c : Char) : Str :=
  if c = '"' then ['\\', '"']
  else if c = '\\' then ['\\', '\\']
  else if c = '\n' then ['\\', 'n']
  else if c = '\t' then ['\\', 't']
  else if c = '\r' then ['\\', 'r']
  else if c = '\x08' then ['\\', 'b']
  else if c = '\x0c' then ['\\', 'f']
  else if c.toNat < 32 || 126 < c.toNat then '\\' :: 'u' :: hex4 c.toNat
  else [c]

/-- json.dumps with the default separators. -/
def json_dumpsF : Nat → Json → Str
  | 0, _ => []
  | _ + 1, .null => "null".data
  | _ + 1, .bool true => "true".data
  | _ + 1, .bool false => "false".data
  | _ + 1, .num lex => lex
  | _ + 1, .str s => '"' :: (s.map jsonEscapeChar).flatten ++ ['"']
  | fuel + 1, .arr l => '[' :: joinSep ", ".data (l.map (json_dumpsF fuel)) ++ [']']
  | fuel + 1, .obj es =>
    '\x7b' :: joinSep ", ".data
      (es.map (fun e => json_dumpsF fuel (.str e.1) ++ ": ".data ++ json_dumpsF fuel e.2)) ++ ['\x7d']

/-- json.dumps. -/
def json_dumps (j : Json) : Str := json_dumpsF (jsonSize j) j

/- ===================== Agent source extraction =====================
   src/coveo-agent/app.py, invoke, lines 439..545 (extraction and dedup)
   and 572..581 (URL validation). Per-tool-call exceptions are caught and
   keep the sources appended so far; an exception inside the dedup loop is
   caught and leaves the list undeduplicated; the validation loop sits in
   no handler, so a .startswith on a non-string url raises out of invoke. -/

/-- One extracted source dict {title, url, project}. -/
structure Source where
  title : Json
  url : Json
  project : Json
deriving DecidableEq

/-- One tool invocation record as the extraction sees it: result is some r
exactly when the tool call carries a truthy string result (non-string or
falsy results are skipped by the code before parsing). -/
structure ToolCall where
  name : Option Str
  result : Option Str
deriving DecidableEq

/-- The citations/passages per-entry extraction: uri, then clickUri, then
clickableuri (default ""); title defaults to "Untitled"; only truthy urls
are appended. A non-dict entry raises AttributeError, which the per-call
handler catches keeping what was already appended. -/
def extractCitationSources : List Json → List Source
  | [] => []
  | .obj es :: rest =>
    let url := pyOrJ ((objGet es "uri".data).getD .null)
               (pyOrJ ((objGet es "clickUri".data).getD .null)
                      ((objGet es "clickableuri".data).getD (.str [])))
    let title := (objGet es "title".data).getD (.str "Untitled".data)
    if jtruthy url then
      { title := title, url := url, project := (objGet es "project".data).getD (.str []) }
        :: extractCitationSources rest
    else extractCitationSources rest
  | _ :: _ => []

/-- The results per-entry extraction: clickUri then uri, with a fallback
into the nested raw object for clickableuri and project. A non-dict entry
or a non-dict raw value raises, keeping what was already appended. -/
def extractResultSources : List Json → List Source
  | [] => []
  | .obj es :: rest =>
    let url0 := pyOrJ ((objGet es "clickUri".data).getD .null) ((objGet es "uri".data).getD (.str []))
    let title := (objGet es "title".data).getD (.str "Untitled".data)
    let project0 := (objGet es "project".data).getD (.str [])
    let raw := objGet es "raw".data
    let urlE : Option Json :=
      if !jtruthy url0 && raw.isSome then
        match raw.getD .null with
        | .obj rs => some ((objGet rs "clickableuri".data).getD (.str []))
        | _ => none
      else some url0
    match urlE with
    | none => []
    | some url =>
      let projE : Option Json :=
        if !jtruthy project0 && raw.isSome then
          match raw.getD .null with
          | .obj rs => some ((objGet rs "project".data).getD (.str []))
          | _ => none
        else some project0
      match projE with
      | none => []
      | some project =>
        if jtruthy url then
          { title := title, url := url, project := project } :: extractResultSources rest
        else extractResultSources rest
  | _ :: _ => []

/-- The key dispatch over one parsed tool result: citations, else passages
(capped at 8), else results (capped at 8), else nothing. Iterating a
truthy non-list value raises before anything is appended. -/
def extractToolData (td : Json) : List Source :=
  match td with
  | .obj es =>
    let citVal := objGet es "citations".data
    let pasVal := objGet es "passages".data
    let resVal := objGet es "results".data
    if citVal.isSome && jtruthy (citVal.getD .null) then
      match citVal.getD .null with
      | .arr l => extractCitationSources l
      | _ => []
    else if pasVal.isSome && jtruthy (pasVal.getD .null) then
      match pasVal.getD .null with
      | .arr l => extractCitationSources (l.take 8)
      | _ => []
    else if resVal.isSome && jtruthy (resVal.getD .null) then
      match resVal.getD .null with
      | .arr l => extractResultSources (l.take 8)
      | _ => []
    else []
  | _ => []

/-- Sources contributed by one tool call: a truthy string result that
parses as JSON feeds the dispatch, anything else contributes nothing. -/
def extractToolCall (tc : ToolCall) : List Source :=
  match tc.result with
  | none => []
  | some r =>
    if r.isEmpty then []
    else
      match json_loads r with
      | none => []
      | some td => extractToolData td

/-- All sources over the tool calls, in call order (a failure inside one
call's processing is caught and the loop continues with the next call). -/
def extractAllSources (tcs : List ToolCall) : List Source :=
  (tcs.map extractToolCall).flatten

/-- A url value that Python cannot hash (set membership would raise). -/
def urlUnhashable : Json → Bool
  | .arr _ => true
  | .obj _ => true
  | _ => false

/-- The dedup loop: keep a source when its url is truthy and not seen yet,
first occurrence wins. -/
def dedupLoop (seen : List Json) : List Source → List Source
  | [] => []
  | s :: t =>
    if jtruthy s.url ∧ s.url ∉ seen then s :: dedupLoop (s.url :: seen) t
    else dedupLoop seen t

/-- Deduplicate sources by url. A truthy unhashable url raises inside the
loop; the exception is caught and the original, undeduplicated list is
kept (the assignment sources = unique_sources is never reached). -/
def dedupSources (l : List Source) : List Source :=
  if l.any (fun s => jtruthy s.url && urlUnhashable s.url) then l else dedupLoop [] l

/-- The final validation pass: keep sources whose url is truthy and starts
with "http"; a truthy non-string url raises AttributeError out of invoke
(this loop sits in no try block). -/
def validateSources : List Source → Except Unit (List Source)
  | [] => .ok []
  | s :: t =>
    if jtruthy s.url then
      match s.url with
      | .str u =>
        if pyStartsWith "http".data u then
          match validateSources t with
          | .ok vt => .ok (s :: vt)
          | .error e => .error e
        else validateSources t
      | _ => .error ()
    else validateSources t

/-- The source list the entrypoint returns for given tool results:
extraction, then dedup, then validation. -/
def sourcesPipeline (tcs : List ToolCall) : Except Unit (List Source) :=
  validateSources (dedupSources (extractAllSources tcs))

/- ===================== Identity resolution =====================
   src/coveo-agent/app.py, get_stable_actor_id (lines 317..351). -/

/-- The attributes probed on context.identity; a field is some v exactly
when hasattr finds the attribute (its value may be the empty string). -/
structure IdObj where
  sub : Option Str
  cognito_username : Option Str
  username : Option Str
deriving DecidableEq

/-- The identity context: either readable (with a truthy identity object
or not), or raising on access (the except branch). -/
inductive IdentityCtx where
  | ok (identity : Option IdObj)
  | raisesOnAccess
deriving DecidableEq

/-- The claim lookup of get_stable_actor_id: the first PRESENT attribute
among sub, cognito_username, username is returned whatever its value;
a raising context yields nothing (caught and logged). -/
def identityClaim : IdentityCtx → Option Str
  | .raisesOnAccess => none
  | .ok none => none
  | .ok (some idObj) =>
    match idObj.sub with
    | some v => some v
    | none =>
      match idObj.cognito_username with
      | some v => some v
      | none => idObj.username

/-- The payload fields the entrypoint reads; a field is some v exactly
when the key is present (its value may be empty). -/
structure InvokePayload where
  actor_id : Option Str
  user_id : Option Str
  session_id : Option Str
  text : Option Str
  prompt : Option Str
  end_session : Bool
deriving DecidableEq

/-- Truthiness of payload.get(key) for a string-valued key. -/
def pyTruthyOpt (o : Option Str) : Bool :=
  match o with
  | some s => !s.isEmpty
  | none => false

/-- get_stable_actor_id: truthy payload actor_id; else the first present
identity claim; else truthy payload user_id; else "anonymous". -/
def get_stable_actor_id (payload : InvokePayload) (context : IdentityCtx) : Str :=
  if pyTruthyOpt payload.actor_id then payload.actor_id.getD []
  else
    match identityClaim context with
    | some v => v
    | none =>
      if pyTruthyOpt payload.user_id then payload.user_id.getD []
      else "anonymous".data

/-- The first non-empty value of a candidate chain, else "anonymous". -/
def firstNonEmpty : List (Option Str) → Str
  | [] => "anonymous".data
  | some s :: t => if s.isEmpty then firstNonEmpty t else s
  | none :: t => firstNonEmpty t

/-- The resolution rule exactly as claim C5 words it, kept separate for
comparison with get_stable_actor_id: the first non-empty value among the
payload's actor_id, the identity claims sub / cognito_username / username
in order, the payload's user_id, and finally the literal "anonymous". -/
def resolveActorSpec (payload : InvokePayload) (context : IdentityCtx) : Str :=
  let claims :=
    match context with
    | .raisesOnAccess => [none, none, none]
    | .ok none => [none, none, none]
    | .ok (some idObj) => [idObj.sub, idObj.cognito_username, idObj.username]
  firstNonEmpty ([payload.actor_id] ++ claims ++ [payload.user_id])

/- ===================== Agent entrypoint =====================
   src/coveo-agent/app.py, invoke (lines 353..587): memory retrieval,
   agent invocation, response cleaning, source pipeline, memory write. -/

/-- Python `a or b` where a is an optional string payload field. -/
def pyOrStr (a : Option Str) (b : Str) : Str :=
  match a with
  | some s => if s.isEmpty then b else s
  | none => b

/-- The bullet lines of the previous-context block: one line per memory,
stopping (exception caught, bullets so far kept) at a non-dict memory. -/
def memBullets : List Json → Str
  | [] => []
  | .obj es :: rest =>
    "- ".data ++ pyStr ((objGet es "content".data).getD (.str [])) ++ '\n' :: memBullets rest
  | _ :: _ => []

/-- The previous-context block built from retrieved memories (top 3). -/
def contextOfMemories (ms : List Json) : Str :=
  if ms.isEmpty then []
  else "\n\n**Previous Context:**\n".data ++ memBullets (ms.take 3)

/-- The agent's system prompt. The long literal is abbreviated to its
opening line: no claim depends on the prompt's text, only on where the
retrieved-context block is appended to it. -/
def SYSTEM_PROMPT : Str :=
  "\nYou are **Coveo Finance Assistant**, a helpful AI that provides accurate, well-formatted answers about financial topics using only information from available tools.\n".data

/-- The externally observable calls invoke makes, in program order. -/
inductive AgentEffect where
  | retrieveMemories (ns : Str) (query : Str)
  | invokeAgent (systemPrompt : Str) (userText : Str)
  | createEvent (actor : Str) (session : Str) (messages : List (Str × Str)) (sessionEnd : Bool)
deriving DecidableEq

instance {e a : Type} [DecidableEq e] [DecidableEq a] : DecidableEq (Except e a) := fun x y =>
  match x, y with
  | .ok v, .ok w =>
    match decEq v w with
    | .isTrue h => .isTrue (by rw [h])
    | .isFalse h => .isFalse (fun he => h (Except.ok.inj he))
  | .error v, .error w =>
    match decEq v w with
    | .isTrue h => .isTrue (by rw [h])
    | .isFalse h => .isFalse (fun he => h (Except.error.inj he))
  | .ok _, .error _ => .isFalse (fun h => Except.noConfusion h)
  | .error _, .ok _ => .isFalse (fun h => Except.noConfusion h)

/-- The environment one request sees: whether the memory subsystem is
configured, what its two calls would do, the text the agent returns
(result.message content, before cleaning) and its tool calls. -/
structure AgentDeps where
  memoryEnabled : Bool
  retrieveResult : Except Unit (List Json)
  agentText : Str
  toolCalls : List ToolCall
  writeResult : Except Unit Unit
deriving DecidableEq

/-- The JSON response of the entrypoint. -/
structure InvokeResult where
  response : Str
  session_id : Str
  sources : List Source
deriving DecidableEq

/-- The entrypoint invoke: session/actor resolution, optional session-end
short circuit, best-effort memory retrieval (a failure degrades to an
empty context block), agent invocation, response cleaning, source
extraction and dedup (errors caught), best-effort memory write (its
outcome is discarded), then URL validation (uncaught) and the response.
The effect trace lists the external calls in program order. -/
def invoke (payload : InvokePayload) (context : IdentityCtx) (deps : AgentDeps) :
    Except Unit (InvokeResult × List AgentEffect) :=
  let session_id := payload.session_id.getD "default_session".data
  let actor_id := get_stable_actor_id payload context
  let user_text := pyOrStr payload.text (pyOrStr payload.prompt [])
  if payload.end_session then
    let effs := if deps.memoryEnabled then
        [AgentEffect.createEvent actor_id session_id
          [("Session ended by user".data, "SYSTEM".data)] true]
      else []
    .ok ({ response := "Session ended successfully. Your conversation has been saved.".data
           session_id := session_id
           sources := [] }, effs)
  else
    let conversation_context :=
      if deps.memoryEnabled then
        match deps.retrieveResult with
        | .error _ => ([] : Str)
        | .ok ms => contextOfMemories ms
      else []
    let retrieveEffs := if deps.memoryEnabled then
        [AgentEffect.retrieveMemories ("/summaries/".data ++ actor_id) user_text]
      else []
    let text := clean_response deps.agentText
    let deduped := dedupSources (extractAllSources deps.toolCalls)
    let writeEffs := if deps.memoryEnabled then
        [AgentEffect.createEvent actor_id session_id
          [(user_text, "USER".data), (text, "ASSISTANT".data)] false]
      else []
    let effs := retrieveEffs
      ++ [AgentEffect.invokeAgent (SYSTEM_PROMPT ++ conversation_context) user_text]
      ++ writeEffs
    match validateSources deduped with
    | .error e => .error e
    | .ok valid_sources =>
      .ok ({ response := text
             session_id := session_id
             sources := valid_sources }, effs)

/- ===================== MCP tool guards =====================
   src/coveo-mcp-server/mcp_server.py, passage_retrieval (lines 87..117)
   and answer_question (lines 119..143). The outbound call each tool would
   make is recorded in a trace; the empty-query guard sits before it. -/

/-- The outbound Coveo API requests the MCP tools can issue. -/
inductive McpCall where
  | passagesRequest (query : Str) (n : Nat)
  | answerRequest (query : Str)
deriving DecidableEq

/-- The passage_retrieval tool: guard the empty query, else call
retrieve_passages (which returns [] on any of its own errors) and shape
the reply. -/
def passage_retrieval (query : Str) (numberOfPassages : Nat) (apiPassages : List Json) :
    Json × List McpCall :=
  if query.isEmpty then
    (.obj [("error".data, .str "Query cannot be empty".data)], [])
  else if apiPassages.isEmpty then
    (.obj [("message".data, .str "No passages found for this query.".data)],
     [.passagesRequest query numberOfPassages])
  else
    (.obj [("passages".data, .str (json_dumps (.arr apiPassages)))],
     [.passagesRequest query numberOfPassages])

/-- The answer_question tool: guard the empty query, else call
generate_answer; an exception becomes a tool-execution error dict. -/
def answer_question (query : Str) (apiAnswer : Except Str Str) : Json × List McpCall :=
  if query.isEmpty then
    (.obj [("error".data, .str "Query cannot be empty".data)], [])
  else
    match apiAnswer with
    | .ok a => (.obj [("answer".data, .str a)], [.answerRequest query])
    | .error m =>
      (.obj [("error".data, .str ("Tool execution failed: ".data ++ m))], [.answerRequest query])

/- ===================== Concrete fixtures =====================
   Concrete SSE events, stream lines, tool results and payloads used by
   the counterexamples and witnesses below. The brace characters of the
   JSON text are written with hex escapes. -/

/-- data of a genqa.citationsType event carrying one citation (title A,
uri https://x). -/
def citData1 : Str :=
  "\x7b\"payloadType\":\"genqa.citationsType\",\"payload\":\"\x7b\\\"citations\\\":[\x7b\\\"title\\\":\\\"A\\\",\\\"uri\\\":\\\"https://x\\\"\x7d]\x7d\"\x7d".data

/-- data of a genqa.citationsType event carrying an empty citations list. -/
def citData2 : Str :=
  "\x7b\"payloadType\":\"genqa.citationsType\",\"payload\":\"\x7b\\\"citations\\\":[]\x7d\"\x7d".data

/-- data of a genqa.endOfStreamType event. -/
def eosData : Str :=
  "\x7b\"payloadType\":\"genqa.endOfStreamType\",\"payload\":\"\x7b\\\"answerGenerated\\\":true\x7d\"\x7d".data

/-- data of a genqa.messageType event whose textDelta is "X". -/
def msgDataX : Str :=
  "\x7b\"payloadType\":\"genqa.messageType\",\"payload\":\"\x7b\\\"textDelta\\\":\\\"X\\\"\x7d\"\x7d".data

/-- The citations event with one citation. -/
def citEv1 : SSEEvent := { event := some "message".data, data := some citData1, id := none, retry := none }

/-- The citations event with an empty list. -/
def citEv2 : SSEEvent := { event := some "message".data, data := some citData2, id := none, retry := none }

/-- The end-of-stream event. -/
def eosEv : SSEEvent := { event := some "message".data, data := some eosData, id := none, retry := none }

/-- A text event arriving after the end-of-stream event. -/
def msgEv : SSEEvent := { event := some "message".data, data := some msgDataX, id := none, retry := none }

/-- The end-of-stream SSE line as generate_answer reads it. -/
def eosLine : Str := "data: ".data ++ eosData

/-- A text-delta SSE line as generate_answer reads it. -/
def msgLine : Str := "data: ".data ++ msgDataX

/-- A citations SSE line with an empty list as generate_answer reads it. -/
def citLine2 : Str := "data: ".data ++ citData2

/-- A tool result carrying four citations: a duplicate url (first titled A,
then B), a non-http url, and a second valid url. -/
def c4ToolResult : Str :=
  "\x7b\"citations\":[\x7b\"title\":\"A\",\"uri\":\"https://x\"\x7d,\x7b\"title\":\"B\",\"uri\":\"https://x\"\x7d,\x7b\"title\":\"C\",\"uri\":\"ftp://y\"\x7d,\x7b\"title\":\"D\",\"uri\":\"https://z\"\x7d]\x7d".data

/-- The tool call carrying c4ToolResult. -/
def c4Tool : ToolCall := { name := some "coveo_answer_question".data, result := some c4ToolResult }

/-- Nested tag markup for the response-cleaning counterexample. -/
def c9Input : Str := "<a><b>x</b>y</a>".data

/-- A payload with no actor_id and user_id "u2". -/
def p5 : InvokePayload :=
  { actor_id := none, user_id := some "u2".data, session_id := none,
    text := none, prompt := none, end_session := false }

/-- An identity context whose sub attribute is present but empty. -/
def ctx5 : IdentityCtx := .ok (some { sub := some [], cognito_username := none, username := none })

/-- A concrete non-end-session payload for the entrypoint. -/
def p6 : InvokePayload :=
  { actor_id := some "u1".data, user_id := none, session_id := some "s1".data,
    text := some "What is ACH?".data, prompt := none, end_session := false }

/-- Concrete deps: memory enabled, retrieval succeeding with no memories,
agent text "Hello", one tool call. -/
def deps6 : AgentDeps :=
  { memoryEnabled := true, retrieveResult := .ok [], agentText := "Hello".data,
    toolCalls := [c4Tool], writeResult := .ok () }

/-- Concrete deps with failing memory retrieval and write. -/
def deps8 : AgentDeps :=
  { memoryEnabled := true, retrieveResult := .error (), agentText := "Hello".data,
    toolCalls := [], writeResult := .error () }

/- ===================== Proof-support definitions ===================== -/

/-- The predicate the validation pass keeps: a truthy string url starting
with "http". -/
def isValidHttp (s : Source) : Bool :=
  jtruthy s.url && (match s.url with | .str u => pyStartsWith "http".data u | _ => false)

/-- Is the effect a memory retrieval? -/
def isRetrieveEff : AgentEffect → Bool
  | .retrieveMemories _ _ => true
  | _ => false

/-- Is the effect the agent invocation? -/
def isAgentEff : AgentEffect → Bool
  | .invokeAgent _ _ => true
  | _ => false

/-- Is the effect a memory write? -/
def isWriteEff : AgentEffect → Bool
  | .createEvent _ _ _ _ => true
  | _ => false

/-- The normalized form of the citation carried by citData1. -/
def c1NormCit : Json :=
  .obj [("title".data, .str "A".data), ("uri".data, .str "https://x".data),
        ("clickUri".data, .str "https://x".data), ("clickableuri".data, .str "https://x".data),
        ("project".data, .str "unknown".data), ("text".data, .str [])]

/-- The inner payload string of citData1. -/
def citInner1 : Str := "\x7b\"citations\":[\x7b\"title\":\"A\",\"uri\":\"https://x\"\x7d]\x7d".data

/-- The parsed entries of citData1. -/
def citMes1 : List (Str × Json) :=
  [("payloadType".data, .str "genqa.citationsType".data), ("payload".data, .str citInner1)]

/-- The parsed entries of citInner1. -/
def citObj1 : List (Str × Json) :=
  [("citations".data, .arr [.obj [("title".data, .str "A".data), ("uri".data, .str "https://x".data)]])]

/-- The inner payload string of citData2. -/
def citInner2 : Str := "\x7b\"citations\":[]\x7d".data

/-- The parsed entries of citData2. -/
def citMes2 : List (Str × Json) :=
  [("payloadType".data, .str "genqa.citationsType".data), ("payload".data, .str citInner2)]

/-- The parsed entries of citInner2. -/
def citObj2 : List (Str × Json) := [("citations".data, .arr [])]

/-- The two sources surviving the pipeline on c4Tool. -/
def c4Out : List Source :=
  [{ title := .str "A".data, url := .str "https://x".data, project := .str [] },
   { title := .str "D".data, url := .str "https://z".data, project := .str [] }]

/-- The response invoke returns on p6/deps6. -/
def c6Res : InvokeResult := { response := "Hello".data, session_id := "s1".data, sources := c4Out }

/-- The effect trace invoke produces on p6/deps6. -/
def c6Trace : List AgentEffect :=
  [.retrieveMemories "/summaries/u1".data "What is ACH?".data,
   .invokeAgent SYSTEM_PROMPT "What is ACH?".data,
   .createEvent "u1".data "s1".data
     [("What is ACH?".data, "USER".data), ("Hello".data, "ASSISTANT".data)] false]

/- ===================== Theorems ===================== -/

theorem splitLines_ne_nil (s : Str) : splitLines s ≠ [] := by
  induction s with
  | nil => simp [splitLines]
  | cons c t ih =>
    unfold splitLines
    split
    · simp
    · split <;> simp

/-- C3: an input whose final line is non-blank while an event with at
least one recognized field is in progress has that partial event flushed
exactly once, as the last element of parse_sse_events' output; in
particular a data-only input with no trailing blank line still yields its
event. -/
theorem C3_final_partial_event_flushed (s : Str)
    (hlast : pyStrip ((splitLines s).getLast (splitLines_ne_nil s)) ≠ [])
    (hprog : (sseFold s).2.isClear = false) :
    parse_sse_events s = (sseFold s).1 ++ [(sseFold s).2] ∧
    (parse_sse_events s).getLast? = some (sseFold s).2 := by
  constructor
  · simp [parse_sse_events, hprog]
  · simp [parse_sse_events, hprog]

/-- Witness for C3 at the data-only truncated-stream input. -/
theorem C3_final_partial_event_flushed_witness :
    parse_sse_events "data: hello".data =
      (sseFold "data: hello".data).1 ++ [(sseFold "data: hello".data).2] ∧
    (parse_sse_events "data: hello".data).getLast? = some (sseFold "data: hello".data).2 :=
  C3_final_partial_event_flushed "data: hello".data (by decide) (by decide)

/-- C10: on the empty query, the passage_retrieval and answer_question MCP
tools return exactly the dict with error "Query cannot be empty" and issue
no request to the Coveo API at all. -/
theorem C10_empty_query_no_request :
    (∀ (n : Nat) (api : List Json),
      passage_retrieval [] n api =
        (.obj [("error".data, .str "Query cannot be empty".data)], [])) ∧
    (∀ api : Except Str Str,
      answer_question [] api =
        (.obj [("error".data, .str "Query cannot be empty".data)], [])) :=
  ⟨fun _ _ => rfl, fun _ => rfl⟩

/-- C5 counterexample: with no actor_id, an identity context whose sub
attribute is present but empty, and user_id "u2", the claim's
first-non-empty rule demands "u2", but get_stable_actor_id returns the
empty present claim. -/
theorem C5_counterexample :
    get_stable_actor_id p5 ctx5 ≠ resolveActorSpec p5 ctx5 ∧
    get_stable_actor_id p5 ctx5 = [] ∧
    resolveActorSpec p5 ctx5 = "u2".data :=
  ⟨by decide, by decide, by decide⟩

/-- C5 amended: resolution returns the truthy payload actor_id first (so
actor_id "u1" always wins); otherwise the first PRESENT identity claim
(sub, then cognito_username, then username) whatever its value, even
empty; a failure reading the identity context is caught and falls through
to the payload rules, never raising; otherwise the truthy user_id;
otherwise the literal "anonymous". -/
theorem C5_amended_resolution :
    (∀ (p : InvokePayload) (ctx : IdentityCtx) (a : Str),
        p.actor_id = some a → a ≠ [] → get_stable_actor_id p ctx = a) ∧
    (∀ (p : InvokePayload) (idObj : IdObj) (v : Str),
        pyTruthyOpt p.actor_id = false → idObj.sub = some v →
        get_stable_actor_id p (.ok (some idObj)) = v) ∧
    (∀ (p : InvokePayload) (idObj : IdObj) (v : Str),
        pyTruthyOpt p.actor_id = false → idObj.sub = none →
        idObj.cognito_username = some v →
        get_stable_actor_id p (.ok (some idObj)) = v) ∧
    (∀ (p : InvokePayload) (idObj : IdObj) (v : Str),
        pyTruthyOpt p.actor_id = false → idObj.sub = none →
        idObj.cognito_username = none → idObj.username = some v →
        get_stable_actor_id p (.ok (some idObj)) = v) ∧
    (∀ p : InvokePayload,
        get_stable_actor_id p .raisesOnAccess = get_stable_actor_id p (.ok none)) ∧
    (∀ (p : InvokePayload) (ctx : IdentityCtx) (u : Str),
        pyTruthyOpt p.actor_id = false → identityClaim ctx = none →
        p.user_id = some u → u ≠ [] → get_stable_actor_id p ctx = u) ∧
    (∀ (p : InvokePayload) (ctx : IdentityCtx),
        pyTruthyOpt p.actor_id = false → identityClaim ctx = none →
        pyTruthyOpt p.user_id = false →
        get_stable_actor_id p ctx = "anonymous".data) := by
  refine ⟨?_, ?_, ?_, ?_, ?_, ?_, ?_⟩
  · intro p ctx a ha hne
    simp [get_stable_actor_id, pyTruthyOpt, ha, hne]
  · intro p idObj v hfa hsub
    simp [get_stable_actor_id, identityClaim, hfa, hsub]
  · intro p idObj v hfa hsub hcog
    simp [get_stable_actor_id, identityClaim, hfa, hsub, hcog]
  · intro p idObj v hfa hsub hcog husr
    simp [get_stable_actor_id, identityClaim, hfa, hsub, hcog, husr]
  · intro p
    rfl
  · intro p ctx u hfa hcl hu hne
    unfold get_stable_actor_id
    rw [hfa]
    simp [hcl, hu, pyTruthyOpt, hne]
  · intro p ctx hfa hcl hfu
    unfold get_stable_actor_id
    rw [hfa]
    simp [hcl, hfu]

/-- Witness for C5 amended at concrete payloads and contexts, exercising
every leg of the chain: truthy actor_id, a present (empty) sub, a
cognito_username with sub absent, a username with both absent, the caught
context failure, user_id, and the anonymous fallback. -/
theorem C5_amended_resolution_witness :
    get_stable_actor_id p6 ctx5 = "u1".data ∧
    get_stable_actor_id p5 ctx5 = [] ∧
    get_stable_actor_id p5
      (.ok (some { sub := none, cognito_username := some "cu".data,
                   username := some "zz".data })) = "cu".data ∧
    get_stable_actor_id p5
      (.ok (some { sub := none, cognito_username := none,
                   username := some "un".data })) = "un".data ∧
    get_stable_actor_id p5 .raisesOnAccess = get_stable_actor_id p5 (.ok none) ∧
    get_stable_actor_id p5 (.ok none) = "u2".data ∧
    get_stable_actor_id
      { actor_id := none, user_id := none, session_id := none,
        text := none, prompt := none, end_session := false } (.ok none) = "anonymous".data :=
  ⟨C5_amended_resolution.1 p6 ctx5 "u1".data rfl (by decide),
   C5_amended_resolution.2.1 p5 { sub := some [], cognito_username := none, username := none } []
     (by decide) rfl,
   C5_amended_resolution.2.2.1 p5
     { sub := none, cognito_username := some "cu".data, username := some "zz".data }
     "cu".data (by decide) rfl rfl,
   C5_amended_resolution.2.2.2.1 p5
     { sub := none, cognito_username := none, username := some "un".data }
     "un".data (by decide) rfl rfl rfl,
   C5_amended_resolution.2.2.2.2.1 p5,
   C5_amended_resolution.2.2.2.2.2.1 p5 (.ok none) "u2".data (by decide) rfl rfl (by decide),
   C5_amended_resolution.2.2.2.2.2.2 _ (.ok none) (by decide) rfl (by decide)⟩

theorem gaStep_eos (line : Str) (heos : gaIsEos line = true) (st : GAState) :
    gaStep st line = .ok (.brk st) := by
  unfold gaIsEos at heos
  unfold gaStep
  cases h1 : gaLineData line with
  | none => rw [h1] at heos; simp at heos
  | some jd =>
    rw [h1] at heos
    simp only [] at heos
    try simp only []
    cases h2 : json_loads jd with
    | none => rw [h2] at heos; simp at heos
    | some j =>
      rw [h2] at heos
      try simp only [] at heos
      try simp only []
      cases j with
      | null => simp at heos
      | bool b => simp at heos
      | num lex => simp at heos
      | str s => simp at heos
      | arr l => simp at heos
      | obj des =>
        have hpt : objGet des "payloadType".data = some (.str "genqa.endOfStreamType".data) := by
          simpa using heos
        simp only [hpt]
        rw [if_neg (by simp), if_neg (by simp)]
        simp

/-- C2 amended: the MCP generate_answer loop (which breaks at the
genqa.endOfStreamType line) satisfies the claim: once the end-of-stream
line is processed, the remaining lines cannot change the state, so the
terminal state equals the state decoded from the prefix up to and
including that line. The answering proxy's process_sse_stream has no such
early exit and keeps folding later events into the accumulator (see the
counterexample). -/
theorem C2_amended_eos_prefix (st : GAState) (l1 l2 : List Str) (eos : Str)
    (heos : gaIsEos eos = true) :
    gaLoop st (l1 ++ eos :: l2) = gaLoop st (l1 ++ [eos]) := by
  induction l1 generalizing st with
  | nil =>
    simp only [List.nil_append, gaLoop, gaStep_eos eos heos st]
  | cons l t ih =>
    simp only [List.cons_append, gaLoop]
    cases h : gaStep st l with
    | error e => rfl
    | ok o =>
      cases o with
      | brk st2 => rfl
      | cont st2 => exact ih st2

/-- Witness for C2 amended: a concrete stream with a text delta after the
end-of-stream line decodes to the same state as the prefix. -/
theorem C2_amended_eos_prefix_witness :
    gaLoop initGAState [eosLine, msgLine] = gaLoop initGAState [eosLine] :=
  C2_amended_eos_prefix initGAState [] [msgLine] eosLine (by decide)

/-- C2 counterexample: in process_sse_stream a genqa.messageType event
arriving after the genqa.endOfStreamType event still appends its text
delta, so the terminal record differs from the record decoded from the
prefix ending at the end-of-stream event. -/
theorem C2_counterexample :
    process_sse_stream [eosEv, msgEv] ≠ process_sse_stream [eosEv] ∧
    (process_sse_stream [eosEv]).map (fun ad => ad.answerGenerated) = .ok (.bool true) ∧
    (process_sse_stream [eosEv, msgEv]).map (fun ad => ad.answer) = .ok "X".data ∧
    (process_sse_stream [eosEv]).map (fun ad => ad.answer) = .ok [] :=
  ⟨by decide, by decide, by decide, by decide⟩

theorem json_loads_nil : json_loads ([] : Str) = none := rfl

theorem branchCitations_replace (ad : AnswerData) (p : Str) (ces : List (Str × Json))
    (cs ncs : List Json)
    (hjp : json_loads p = some (.obj ces))
    (hcit : objGet ces "citations".data = some (.arr cs))
    (hcs : cs ≠ [])
    (hmap : cs.mapM normalizeCitation = Except.ok ncs) :
    branchCitations ad (.str p) = .ok { ad with citations := .arr ncs } := by
  have hpne : p ≠ [] := by
    intro h
    rw [h, json_loads_nil] at hjp
    exact Option.noConfusion hjp
  unfold branchCitations
  rw [if_pos (by simp [jtruthy, hpne])]
  try simp only []
  rw [hjp]
  try simp only []
  simp only [hcit, Option.getD_some]
  rw [if_pos (by simp [jtruthy, hcs])]
  try simp only []
  rw [hmap]

theorem branchCitations_empty (ad : AnswerData) (p : Str) (ces : List (Str × Json))
    (hjp : json_loads p = some (.obj ces))
    (hcit : objGet ces "citations".data = some (.arr [])) :
    branchCitations ad (.str p) = .ok ad := by
  have hpne : p ≠ [] := by
    intro h
    rw [h, json_loads_nil] at hjp
    exact Option.noConfusion hjp
  unfold branchCitations
  rw [if_pos (by simp [jtruthy, hpne])]
  try simp only []
  rw [hjp]
  try simp only []
  simp only [hcit, Option.getD_some]
  rw [if_neg (by simp [jtruthy])]

theorem psssStep_citationsType (ad : AnswerData) (e : SSEEvent) (d : Str)
    (mes : List (Str × Json)) (ad2 : AnswerData)
    (hev : e.event = some "message".data) (hda : e.data = some d) (hdne : d ≠ [])
    (hjd : json_loads d = some (.obj mes))
    (hpt : objGet mes "payloadType".data = some (.str "genqa.citationsType".data))
    (hbr : branchCitations ad ((objGet mes "payload".data).getD (.str [])) = .ok ad2) :
    ∃ ad3, psssStep ad e = .ok ad3 ∧ ad3.citations = ad2.citations ∧
      ad3.answer = ad2.answer ∧ ad3.answerGenerated = ad2.answerGenerated := by
  unfold psssStep
  rw [if_pos ⟨hev, by simp [hda, hdne]⟩]
  rw [hda]
  simp only [Option.getD_some]
  rw [hjd]
  try simp only []
  simp only [hpt, Option.getD_some]
  rw [if_neg (by decide), if_neg (by decide), if_pos trivial]
  rw [hbr]
  try simp only []
  cases hfr : objGet mes "finishReason".data with
  | none => exact ⟨ad2, rfl, rfl, rfl, rfl⟩
  | some fr =>
    try simp only []
    by_cases hf : jtruthy fr = true
    · rw [if_pos hf]
      exact ⟨_, rfl, rfl, rfl, rfl⟩
    · rw [if_neg hf]
      exact ⟨ad2, rfl, rfl, rfl, rfl⟩

theorem gaStep_citations (st : GAState) (line jd : Str) (des : List (Str × Json)) (p : Str)
    (pes : List (Str × Json))
    (h1 : gaLineData line = some jd) (h2 : json_loads jd = some (.obj des))
    (hpt : objGet des "payloadType".data = some (.str "genqa.citationsType".data))
    (hpl : objGet des "payload".data = some (.str p))
    (hjp : json_loads p = some (.obj pes)) :
    gaStep st line =
      .ok (.cont { st with citations := (objGet pes "citations".data).getD (.arr []) }) := by
  unfold gaStep
  rw [h1]
  try simp only []
  rw [h2]
  try simp only []
  simp only [hpt, Option.some.injEq]
  rw [if_neg (by decide), if_pos trivial]
  simp only [hpl, Option.getD_some]
  rw [hjp]
  try simp only []

/-- C1 amended: in the answering proxy's process_sse_stream, a
genqa.citationsType event whose citations list is non-empty replaces the
accumulated citations wholesale with the reshaped list, but an event whose
citations list is EMPTY leaves the previously accumulated citations
unchanged (the assignment is guarded by "if citations_list:"), so the
spec's two-event example ends with the first list, not an empty one. In
the MCP generate_answer decoder the citations really are replaced
wholesale on every citations event, including by an empty or missing
list. -/
theorem C1_citations_replace_semantics :
    (∀ (ad : AnswerData) (e : SSEEvent) (d : Str) (mes : List (Str × Json)) (p : Str)
        (ces : List (Str × Json)) (cs ncs : List Json),
        e.event = some "message".data →
        e.data = some d →
        d ≠ [] →
        json_loads d = some (.obj mes) →
        objGet mes "payloadType".data = some (.str "genqa.citationsType".data) →
        objGet mes "payload".data = some (.str p) →
        json_loads p = some (.obj ces) →
        objGet ces "citations".data = some (.arr cs) →
        cs ≠ [] →
        cs.mapM normalizeCitation = Except.ok ncs →
        ∃ ad2, psssStep ad e = .ok ad2 ∧ ad2.citations = .arr ncs ∧
          ad2.answer = ad.answer ∧ ad2.answerGenerated = ad.answerGenerated) ∧
    (∀ (ad : AnswerData) (e : SSEEvent) (d : Str) (mes : List (Str × Json)) (p : Str)
        (ces : List (Str × Json)),
        e.event = some "message".data →
        e.data = some d →
        d ≠ [] →
        json_loads d = some (.obj mes) →
        objGet mes "payloadType".data = some (.str "genqa.citationsType".data) →
        objGet mes "payload".data = some (.str p) →
        json_loads p = some (.obj ces) →
        objGet ces "citations".data = some (.arr []) →
        ∃ ad2, psssStep ad e = .ok ad2 ∧ ad2.citations = ad.citations ∧
          ad2.answer = ad.answer ∧ ad2.answerGenerated = ad.answerGenerated) ∧
    (∀ (st : GAState) (line jd : Str) (des : List (Str × Json)) (p : Str)
        (pes : List (Str × Json)),
        gaLineData line = some jd →
        json_loads jd = some (.obj des) →
        objGet des "payloadType".data = some (.str "genqa.citationsType".data) →
        objGet des "payload".data = some (.str p) →
        json_loads p = some (.obj pes) →
        gaStep st line =
          .ok (.cont { st with citations := (objGet pes "citations".data).getD (.arr []) })) := by
  refine ⟨?_, ?_, ?_⟩
  · intro ad e d mes p ces cs ncs hev hda hdne hjd hpt hpl hjp hcit hcs hmap
    have hbr : branchCitations ad ((objGet mes "payload".data).getD (.str [])) =
        .ok { ad with citations := .arr ncs } := by
      rw [hpl, Option.getD_some]
      exact branchCitations_replace ad p ces cs ncs hjp hcit hcs hmap
    obtain ⟨ad3, hstep, hc, ha, hg⟩ := psssStep_citationsType ad e d mes _ hev hda hdne hjd hpt hbr
    exact ⟨ad3, hstep, by simpa using hc, by simpa using ha, by simpa using hg⟩
  · intro ad e d mes p ces hev hda hdne hjd hpt hpl hjp hcit
    have hbr : branchCitations ad ((objGet mes "payload".data).getD (.str [])) = .ok ad := by
      rw [hpl, Option.getD_some]
      exact branchCitations_empty ad p ces hjp hcit
    obtain ⟨ad3, hstep, hc, ha, hg⟩ := psssStep_citationsType ad e d mes _ hev hda hdne hjd hpt hbr
    exact ⟨ad3, hstep, hc, ha, hg⟩
  · intro st line jd des p pes h1 h2 hpt hpl hjp
    exact gaStep_citations st line jd des p pes h1 h2 hpt hpl hjp

/-- C1 counterexample: feeding the decoder a citations event with one
citation followed by a citations event with an empty list leaves the
FIRST list in the terminal record, where the claim demands an empty one. -/
theorem C1_counterexample :
    (process_sse_stream [citEv1, citEv2]).map (fun ad => ad.citations) =
      .ok (.arr [c1NormCit]) ∧
    Json.arr [c1NormCit] ≠ .arr [] :=
  ⟨by decide, by decide⟩

/-- Witness for C1 amended at the concrete citation events. -/
theorem C1_citations_replace_semantics_witness :
    (∃ ad2, psssStep initAnswerData citEv1 = .ok ad2 ∧ ad2.citations = .arr [c1NormCit] ∧
      ad2.answer = initAnswerData.answer ∧
      ad2.answerGenerated = initAnswerData.answerGenerated) ∧
    (∃ ad2, psssStep initAnswerData citEv2 = .ok ad2 ∧
      ad2.citations = initAnswerData.citations ∧
      ad2.answer = initAnswerData.answer ∧
      ad2.answerGenerated = initAnswerData.answerGenerated) ∧
    gaStep initGAState citLine2 =
      .ok (.cont { initGAState with citations := (objGet citObj2 "citations".data).getD (.arr []) }) :=
  ⟨C1_citations_replace_semantics.1 initAnswerData citEv1 citData1 citMes1 citInner1 citObj1
      [.obj [("title".data, .str "A".data), ("uri".data, .str "https://x".data)]] [c1NormCit]
      rfl rfl (by decide) (by decide) (by decide) (by decide) (by decide) (by decide)
      (by decide) (by decide),
   C1_citations_replace_semantics.2.1 initAnswerData citEv2 citData2 citMes2 citInner2 citObj2
      rfl rfl (by decide) (by decide) (by decide) (by decide) (by decide) (by decide),
   C1_citations_replace_semantics.2.2 initGAState citLine2 citData2 citMes2 citInner2 citObj2
      (by decide) (by decide) (by decide) (by decide) (by decide)⟩

theorem splitLines_append (x y : Str) :
    splitLines (x ++ '\n' :: y) = splitLines x ++ splitLines y := by
  induction x with
  | nil => simp [splitLines]
  | cons c t ih =>
    obtain ⟨l0, ls0, heq⟩ : ∃ l0 ls0, splitLines t = l0 :: ls0 := by
      cases h : splitLines t with
      | nil => exact absurd h (splitLines_ne_nil t)
      | cons a b => exact ⟨a, b, rfl⟩
    by_cases hc : c = '\n'
    · subst hc
      show splitLines ('\n' :: (t ++ '\n' :: y)) = splitLines ('\n' :: t) ++ splitLines y
      rw [show ∀ x : Str, splitLines ('\n' :: x) = [] :: splitLines x from fun _ => rfl,
          show ∀ x : Str, splitLines ('\n' :: x) = [] :: splitLines x from fun _ => rfl,
          ih]
      rfl
    · have hunfold : ∀ x : Str, splitLines (c :: x) =
          match splitLines x with | [] => [[c]] | l :: ls => (c :: l) :: ls := by
        intro x
        simp only [splitLines, if_neg hc]
      show splitLines (c :: (t ++ '\n' :: y)) = splitLines (c :: t) ++ splitLines y
      rw [hunfold (t ++ '\n' :: y), hunfold t, ih, heq, List.cons_append]
      rfl

theorem SSEEvent.isClear_iff (e : SSEEvent) : e.isClear = true ↔ e = SSEEvent.blank := by
  cases e with
  | mk ev da i r =>
    simp only [SSEEvent.isClear, SSEEvent.blank, Bool.and_eq_true, Option.isNone_iff_eq_none,
      SSEEvent.mk.injEq]
    tauto

theorem sseLine_events (E : List SSEEvent) (c : SSEEvent) (l : Str) :
    sseLine (E, c) l = (E ++ (sseLine ([], c) l).1, (sseLine ([], c) l).2) := by
  unfold sseLine
  simp only []
  split_ifs <;> first | simp | (cases hd : c.data <;> simp [hd])

theorem sseFoldl_shift (ls : List Str) (E : List SSEEvent) (c : SSEEvent) :
    ls.foldl sseLine (E, c) =
      (E ++ (ls.foldl sseLine ([], c)).1, (ls.foldl sseLine ([], c)).2) := by
  induction ls generalizing E c with
  | nil => simp
  | cons l t ih =>
    rcases hP : sseLine ([], c) l with ⟨P1, P2⟩
    simp only [List.foldl_cons, sseLine_events E c l, hP]
    rw [ih, ih P1 P2]
    simp

theorem sseLine_blank_snd (st : List SSEEvent × SSEEvent) (w : Str) (hw : pyStrip w = []) :
    (sseLine st w).2 = SSEEvent.blank := by
  unfold sseLine
  rw [hw, if_pos rfl]
  by_cases h : st.2.isClear = true
  · rw [if_pos h]
    exact (SSEEvent.isClear_iff st.2).mp h
  · rw [if_neg h]

theorem sseFold_trailing_blank (ls : List Str) (w : Str) (hw : pyStrip w = [])
    (init : List SSEEvent × SSEEvent) :
    ((ls ++ [w]).foldl sseLine init).2 = SSEEvent.blank := by
  rw [List.foldl_append]
  exact sseLine_blank_snd _ w hw

/-- C7: the SSE parser is a pure, deterministic function of its input
(equal inputs parse equally), and when a ends with a blank line (its final
newline-terminated line strips to nothing) parsing the concatenation
a ++ b yields exactly the events of a followed by the events of b. -/
theorem C7_parse_concat_pure (a b a0 : Str)
    (ha : a = a0 ++ ['\n'])
    (hw : pyStrip ((splitLines a0).getLast (splitLines_ne_nil a0)) = []) :
    parse_sse_events (a ++ b) = parse_sse_events a ++ parse_sse_events b ∧
    (∀ s t : Str, s = t → parse_sse_events s = parse_sse_events t) := by
  refine ⟨?_, fun s t hst => by rw [hst]⟩
  subst ha
  have hclear : ((splitLines a0).foldl sseLine ([], SSEEvent.blank)).2 = SSEEvent.blank := by
    conv_lhs => rw [(List.dropLast_append_getLast (splitLines_ne_nil a0)).symm]
    exact sseFold_trailing_blank _ _ hw _
  rcases hst : (splitLines a0).foldl sseLine ([], SSEEvent.blank) with ⟨E0, c0⟩
  have hc0 : c0 = SSEEvent.blank := by rw [hst] at hclear; exact hclear
  subst hc0
  have hlines_a : splitLines (a0 ++ ['\n']) = splitLines a0 ++ [[]] := by
    simpa [splitLines] using splitLines_append a0 []
  have hparse_a : parse_sse_events (a0 ++ ['\n']) = E0 := by
    unfold parse_sse_events sseFold
    rw [hlines_a, List.foldl_append, hst]
    rfl
  have hlines_ab : splitLines (a0 ++ ['\n'] ++ b) = splitLines a0 ++ splitLines b := by
    rw [List.append_assoc]
    exact splitLines_append a0 b
  rcases hQ : (splitLines b).foldl sseLine ([], SSEEvent.blank) with ⟨Q1, Q2⟩
  have hfold_ab : (splitLines (a0 ++ ['\n'] ++ b)).foldl sseLine ([], SSEEvent.blank) =
      (E0 ++ Q1, Q2) := by
    rw [hlines_ab, List.foldl_append, hst]
    have hsh := sseFoldl_shift (splitLines b) E0 SSEEvent.blank
    rw [hQ] at hsh
    simpa using hsh
  rw [hparse_a]
  unfold parse_sse_events sseFold
  rw [hfold_ab, hQ]
  by_cases hq2 : Q2.isClear = true
  · simp [hq2]
  · simp [hq2]


/-- Witness for C7 at a concrete pair of streams. -/
theorem C7_parse_concat_pure_witness :
    parse_sse_events ("data: x\n\n".data ++ "data: y".data) =
      parse_sse_events "data: x\n\n".data ++ parse_sse_events "data: y".data ∧
    (∀ s t : Str, s = t → parse_sse_events s = parse_sse_events t) :=
  C7_parse_concat_pure "data: x\n\n".data "data: y".data "data: x\n".data (by decide) (by decide)

/-- C6: in every non-end-session turn, memory retrieval happens strictly
before the agent invocation, the memory write strictly after it (and after
the final text is produced), and the ASSISTANT message persisted equals,
character for character, the cleaned text returned in the response field. -/
theorem C6_memory_order (p : InvokePayload) (ctx : IdentityCtx) (d : AgentDeps)
    (res : InvokeResult) (tr : List AgentEffect)
    (hend : p.end_session = false)
    (hok : invoke p ctx d = .ok (res, tr)) :
    (∀ i j : Fin tr.length, isRetrieveEff (tr.get i) = true →
        isAgentEff (tr.get j) = true → (i : Nat) < (j : Nat)) ∧
    (∀ i j : Fin tr.length, isAgentEff (tr.get i) = true →
        isWriteEff (tr.get j) = true → (i : Nat) < (j : Nat)) ∧
    (∀ aid sid msgs se, AgentEffect.createEvent aid sid msgs se ∈ tr →
        msgs = [(pyOrStr p.text (pyOrStr p.prompt []), "USER".data),
                (res.response, "ASSISTANT".data)]) ∧
    res.response = clean_response d.agentText := by
  unfold invoke at hok
  rw [hend] at hok
  simp only [Bool.false_eq_true, if_false] at hok
  cases hval : validateSources (dedupSources (extractAllSources d.toolCalls)) with
  | error e => rw [hval] at hok; exact absurd hok (by simp)
  | ok vs =>
    rw [hval] at hok
    simp only [Except.ok.injEq, Prod.mk.injEq] at hok
    obtain ⟨hres, htr⟩ := hok
    subst hres
    subst htr
    cases hm : d.memoryEnabled with
    | true =>
      simp only [hm, if_true]
      refine ⟨?_, ?_, ?_, by simp⟩
      · intro i j hi hj
        fin_cases i <;> fin_cases j <;> simp_all [isRetrieveEff, isAgentEff]
      · intro i j hi hj
        fin_cases i <;> fin_cases j <;> simp_all [isAgentEff, isWriteEff]
      · intro aid sid msgs se hmem
        simp only [hm, if_true, List.mem_append, List.mem_singleton, List.mem_cons] at hmem
        rcases hmem with (h | h) | h <;> simp_all
    | false =>
      simp only [hm, if_false]
      refine ⟨?_, ?_, ?_, by simp⟩
      · intro i j hi hj
        fin_cases i <;> fin_cases j <;> simp_all [isRetrieveEff, isAgentEff]
      · intro i j hi hj
        fin_cases i <;> fin_cases j <;> simp_all [isAgentEff, isWriteEff]
      · intro aid sid msgs se hmem
        simp only [hm, if_false, List.mem_append, List.mem_singleton, List.mem_cons] at hmem
        rcases hmem with (h | h) | h <;> simp_all

/-- C8: a memory-store failure during pre-turn retrieval or post-turn write
never propagates: the turn still returns the well-formed
response/session_id/sources record, with a retrieval failure degrading to
an empty previous-context block in the agent's system prompt. -/
theorem C8_memory_errors_nonfatal (p : InvokePayload) (ctx : IdentityCtx) (d : AgentDeps)
    (out : List Source)
    (hend : p.end_session = false)
    (hmem : d.memoryEnabled = true)
    (hfail : d.retrieveResult = .error () ∨ d.writeResult = .error ())
    (hsrc : validateSources (dedupSources (extractAllSources d.toolCalls)) = .ok out) :
    ∃ tr, invoke p ctx d = .ok
        ({ response := clean_response d.agentText
           session_id := p.session_id.getD "default_session".data
           sources := out }, tr) ∧
      (d.retrieveResult = .error () →
        AgentEffect.invokeAgent SYSTEM_PROMPT (pyOrStr p.text (pyOrStr p.prompt [])) ∈ tr) := by
  unfold invoke
  rw [hend]
  simp only [Bool.false_eq_true, if_false, hmem, if_true, hsrc]
  refine ⟨_, rfl, ?_⟩
  intro hr
  rw [hr]
  simp


set_option maxRecDepth 8000 in
/-- Witness for C6 at a concrete request. -/
theorem C6_memory_order_witness :
    (∀ i j : Fin c6Trace.length, isRetrieveEff (c6Trace.get i) = true →
        isAgentEff (c6Trace.get j) = true → (i : Nat) < (j : Nat)) ∧
    (∀ i j : Fin c6Trace.length, isAgentEff (c6Trace.get i) = true →
        isWriteEff (c6Trace.get j) = true → (i : Nat) < (j : Nat)) ∧
    (∀ aid sid msgs se, AgentEffect.createEvent aid sid msgs se ∈ c6Trace →
        msgs = [(pyOrStr p6.text (pyOrStr p6.prompt []), "USER".data),
                (c6Res.response, "ASSISTANT".data)]) ∧
    c6Res.response = clean_response deps6.agentText :=
  C6_memory_order p6 .raisesOnAccess deps6 c6Res c6Trace rfl (by decide)

/-- Witness for C8 at a concrete request with failing memory calls. -/
theorem C8_memory_errors_nonfatal_witness :
    ∃ tr, invoke p6 .raisesOnAccess deps8 = .ok
        ({ response := clean_response deps8.agentText
           session_id := p6.session_id.getD "default_session".data
           sources := [] }, tr) ∧
      (deps8.retrieveResult = .error () →
        AgentEffect.invokeAgent SYSTEM_PROMPT (pyOrStr p6.text (pyOrStr p6.prompt [])) ∈ tr) :=
  C8_memory_errors_nonfatal p6 .raisesOnAccess deps8 [] rfl rfl (Or.inl rfl) (by decide)
theorem findIdxO_lt (p : Char → Bool) (s : Str) (i : Nat) (h : findIdxO p s = some i) :
    i < s.length := by
  induction s generalizing i with
  | nil => simp [findIdxO] at h
  | cons c t ih =>
    unfold findIdxO at h
    by_cases hc : p c = true
    · rw [if_pos hc] at h
      simp only [Option.some.injEq] at h
      simp only [List.length_cons]
      omega
    · rw [if_neg hc] at h
      cases hfind : findIdxO p t with
      | none => rw [hfind] at h; simp at h
      | some j =>
        rw [hfind] at h
        simp at h
        have := ih j hfind
        simp only [List.length_cons]
        omega

theorem findIdxO_append (p : Char → Bool) (xs ys : Str) (y : Char)
    (hxs : ∀ c ∈ xs, p c = false) (hy : p y = true) :
    findIdxO p (xs ++ y :: ys) = some xs.length := by
  induction xs with
  | nil => simp [findIdxO, hy]
  | cons c t ih =>
    have hc : p c = false := hxs c (by simp)
    show findIdxO p (c :: (t ++ y :: ys)) = some (t.length + 1)
    unfold findIdxO
    rw [if_neg (by simp [hc]), ih (fun x hx => hxs x (by simp [hx]))]
    rfl

theorem findOpenTag_cons_ne (c : Char) (s : Str) (hc : c ≠ '<') :
    findOpenTag (c :: s) = (findOpenTag s).map (fun q => (q.1 + 1, q.2 + 1)) := by
  conv_lhs => unfold findOpenTag
  rw [if_neg hc]

theorem findOpenTag_pre (pre s : Str) (hpre : ∀ c ∈ pre, c ≠ '<') :
    findOpenTag (pre ++ s) =
      (findOpenTag s).map (fun q => (q.1 + pre.length, q.2 + pre.length)) := by
  induction pre with
  | nil =>
    simp only [List.nil_append, List.length_nil]
    cases h : findOpenTag s <;> simp
  | cons c t ih =>
    rw [List.cons_append, findOpenTag_cons_ne c _ (hpre c (by simp)),
        ih (fun x hx => hpre x (by simp [hx]))]
    cases findOpenTag s with
    | none => rfl
    | some q =>
      simp only [Option.map_some', Option.some.injEq, Prod.mk.injEq, List.length_cons]
      constructor <;> omega

theorem findOpenTag_at (tag rest : Str) (h1 : tag ≠ []) (h2 : ∀ c ∈ tag, c ≠ '>') :
    findOpenTag ('<' :: (tag ++ '>' :: rest)) = some (0, tag.length + 1) := by
  unfold findOpenTag
  rw [if_pos rfl]
  rw [findIdxO_append _ tag rest '>' (fun c hc => by simp [h2 c hc]) (by simp)]
  simp only []
  rw [if_pos (by cases tag with | nil => exact absurd rfl h1 | cons a b => simp)]

theorem findCloseTag_cons_ne (c : Char) (s : Str) (hc : c ≠ '<') :
    findCloseTag (c :: s) = (findCloseTag s).map (fun q => (q.1 + 1, q.2 + 1)) := by
  conv_lhs => unfold findCloseTag
  rw [if_neg hc]

theorem findCloseTag_pre (pre s : Str) (hpre : ∀ c ∈ pre, c ≠ '<') :
    findCloseTag (pre ++ s) =
      (findCloseTag s).map (fun q => (q.1 + pre.length, q.2 + pre.length)) := by
  induction pre with
  | nil =>
    simp only [List.nil_append, List.length_nil]
    cases h : findCloseTag s <;> simp
  | cons c t ih =>
    rw [List.cons_append, findCloseTag_cons_ne c _ (hpre c (by simp)),
        ih (fun x hx => hpre x (by simp [hx]))]
    cases findCloseTag s with
    | none => rfl
    | some q =>
      simp only [Option.map_some', Option.some.injEq, Prod.mk.injEq, List.length_cons]
      constructor <;> omega

theorem findCloseTag_at (cl post : Str) (h1 : cl ≠ []) (h2 : ∀ c ∈ cl, c ≠ '>') :
    findCloseTag ('<' :: '/' :: (cl ++ '>' :: post)) = some (0, cl.length + 2) := by
  cases cl with
  | nil => exact absurd rfl h1
  | cons c0 ct =>
    unfold findCloseTag
    rw [if_pos rfl]
    simp only [List.cons_append]
    rw [if_neg (h2 c0 (by simp))]
    rw [show c0 :: (ct ++ '>' :: post) = (c0 :: ct) ++ '>' :: post from rfl]
    rw [findIdxO_append _ (c0 :: ct) post '>' (fun c hc => by simp [h2 c hc]) (by simp)]

theorem findOpenTag_nil_of_some (s : Str) (q : Nat × Nat) (h : findOpenTag s = some q) :
    1 ≤ s.length := by
  cases s with
  | nil => simp [findOpenTag] at h
  | cons a t => simp

theorem stripAnyTagsF_irrel (f1 : Nat) : ∀ (f2 : Nat) (s : Str), s.length < f1 →
    s.length < f2 → stripAnyTagsF f1 s = stripAnyTagsF f2 s := by
  induction f1 with
  | zero => intro f2 s h1 h2; omega
  | succ f ih =>
    intro f2 s h1 h2
    cases f2 with
    | zero => omega
    | succ f2b =>
      unfold stripAnyTagsF
      cases ho : findOpenTag s with
      | none => rfl
      | some q =>
        obtain ⟨i, g⟩ := q
        try simp only []
        cases hc : findCloseTag (s.drop (g + 1)) with
        | none => rfl
        | some q2 =>
          obtain ⟨c2, h2i⟩ := q2
          try simp only []
          congr 1
          have hslen : 1 ≤ s.length := findOpenTag_nil_of_some s (i, g) ho
          have hrest : ((s.drop (g + 1)).drop (h2i + 1)).length < s.length := by
            simp only [List.length_drop]
            omega
          exact ih f2b _ (by omega) (by omega)

/-- C9 amended: the catch-all third substitution of clean_response removes,
scanning left to right, the region from each tag-like token to the NEAREST
following closing-style token, with no constraint that the names match: a
single non-nested <tag>body</cl> block whose surroundings carry no other
tag characters is removed together with its entire body (so legitimate
markup is destroyed too), but for nested or stray markup the enclosed
content is only removed up to the first closing token, and trailing
content plus dangling closing tags survive into the user-visible text (see
the counterexample). -/
theorem C9_amended_tag_removal (pre tag body cl post : Str)
    (hpre : ∀ c ∈ pre, c ≠ '<')
    (htag : tag ≠ []) (htagc : ∀ c ∈ tag, c ≠ '>')
    (hbody : ∀ c ∈ body, c ≠ '<')
    (hcl : cl ≠ []) (hclc : ∀ c ∈ cl, c ≠ '>') :
    stripAnyTags (pre ++ '<' :: (tag ++ '>' :: (body ++ '<' :: '/' :: (cl ++ '>' :: post)))) =
      pre ++ stripAnyTags post := by
  set s := pre ++ '<' :: (tag ++ '>' :: (body ++ '<' :: '/' :: (cl ++ '>' :: post))) with hs
  have ho : findOpenTag s = some (0 + pre.length, (tag.length + 1) + pre.length) := by
    rw [hs, findOpenTag_pre pre _ hpre, findOpenTag_at tag _ htag htagc]
    rfl
  have hdrop1 : s.drop ((tag.length + 1) + pre.length + 1) =
      body ++ '<' :: '/' :: (cl ++ '>' :: post) := by
    rw [hs]
    rw [show pre ++ '<' :: (tag ++ '>' :: (body ++ '<' :: '/' :: (cl ++ '>' :: post))) =
        (pre ++ '<' :: (tag ++ ['>'])) ++ (body ++ '<' :: '/' :: (cl ++ '>' :: post)) by
      simp]
    rw [show (tag.length + 1) + pre.length + 1 = (pre ++ '<' :: (tag ++ ['>'])).length by
      simp only [List.length_append, List.length_cons, List.length_nil]
      omega]
    exact List.drop_left _ _
  have hcv : findCloseTag (body ++ '<' :: '/' :: (cl ++ '>' :: post)) =
      some (0 + body.length, (cl.length + 2) + body.length) := by
    rw [findCloseTag_pre body _ hbody, findCloseTag_at cl post hcl hclc]
    rfl
  have hdrop2 : (body ++ '<' :: '/' :: (cl ++ '>' :: post)).drop
      ((cl.length + 2) + body.length + 1) = post := by
    rw [show body ++ '<' :: '/' :: (cl ++ '>' :: post) =
        (body ++ '<' :: '/' :: (cl ++ ['>'])) ++ post by simp]
    rw [show (cl.length + 2) + body.length + 1 = (body ++ '<' :: '/' :: (cl ++ ['>'])).length by
      simp only [List.length_append, List.length_cons, List.length_nil]
      omega]
    exact List.drop_left _ _
  have htake : s.take (0 + pre.length) = pre := by
    rw [hs, show (0 : Nat) + pre.length = pre.length by omega]
    exact List.take_left _ _
  have hlen : post.length < s.length := by
    rw [hs]
    simp only [List.length_append, List.length_cons]
    omega
  conv_lhs => unfold stripAnyTags stripAnyTagsF
  rw [ho]
  try simp only []
  rw [hdrop1, hcv]
  try simp only []
  rw [hdrop2, htake]
  congr 1
  rw [show stripAnyTags post = stripAnyTagsF (post.length + 1) post from rfl]
  exact stripAnyTagsF_irrel _ _ _ hlen (by omega)


/-- C9 counterexample: on nested markup the pass does not remove the outer
paired block with its entire content; a dangling closing tag survives into
the cleaned, user-visible text. -/
theorem C9_counterexample :
    clean_response c9Input = "y</a>".data ∧
    '<' ∈ clean_response c9Input ∧
    clean_response c9Input ≠ [] :=
  ⟨by decide, by decide, by decide⟩

/-- Witness for C9 amended at a concrete non-nested block. -/
theorem C9_amended_tag_removal_witness :
    stripAnyTags ("p".data ++ '<' :: ("a".data ++ '>' ::
        ("x".data ++ '<' :: '/' :: ("b".data ++ '>' :: "q".data)))) =
      "p".data ++ stripAnyTags "q".data :=
  C9_amended_tag_removal "p".data "a".data "x".data "b".data "q".data
    (by decide) (by decide) (by decide) (by decide) (by decide) (by decide)
theorem dedupLoop_sublist (l : List Source) (seen : List Json) :
    (dedupLoop seen l).Sublist l := by
  induction l generalizing seen with
  | nil => simp [dedupLoop]
  | cons s t ih =>
    unfold dedupLoop
    by_cases h : jtruthy s.url = true ∧ s.url ∉ seen
    · rw [if_pos h]
      exact (ih _).cons₂ s
    · rw [if_neg h]
      exact (ih seen).cons s

theorem dedupLoop_mem (l : List Source) (seen : List Json) (s : Source)
    (hs : s ∈ dedupLoop seen l) :
    jtruthy s.url = true ∧ s.url ∉ seen ∧
      l.find? (fun t => t.url == s.url) = some s := by
  induction l generalizing seen with
  | nil => simp [dedupLoop] at hs
  | cons x t ih =>
    unfold dedupLoop at hs
    by_cases h : jtruthy x.url = true ∧ x.url ∉ seen
    · rw [if_pos h] at hs
      rcases List.mem_cons.mp hs with heq | hmem
      · subst heq
        refine ⟨h.1, h.2, ?_⟩
        rw [List.find?_cons_of_pos _ (by simp)]
      · obtain ⟨h1, h2, h3⟩ := ih (x.url :: seen) hmem
        have hne : x.url ≠ s.url := fun he => h2 (he ▸ List.mem_cons_self _ _)
        refine ⟨h1, fun hm => h2 (List.mem_cons_of_mem _ hm), ?_⟩
        rw [List.find?_cons_of_neg _ (by simp [hne])]
        exact h3
    · rw [if_neg h] at hs
      obtain ⟨h1, h2, h3⟩ := ih seen hs
      have hne : x.url ≠ s.url := by
        intro he
        apply h
        exact ⟨he ▸ h1, he ▸ h2⟩
      refine ⟨h1, h2, ?_⟩
      rw [List.find?_cons_of_neg _ (by simp [hne])]
      exact h3

theorem dedupLoop_nodup (l : List Source) (seen : List Json) :
    ((dedupLoop seen l).map (fun s => s.url)).Nodup ∧
    ∀ u ∈ (dedupLoop seen l).map (fun s => s.url), u ∉ seen := by
  induction l generalizing seen with
  | nil => simp [dedupLoop]
  | cons x t ih =>
    unfold dedupLoop
    by_cases h : jtruthy x.url = true ∧ x.url ∉ seen
    · rw [if_pos h]
      obtain ⟨hn, hs⟩ := ih (x.url :: seen)
      constructor
      · simp only [List.map_cons, List.nodup_cons]
        exact ⟨fun hmem => (hs _ hmem) (List.mem_cons_self _ _), hn⟩
      · intro u hu
        simp only [List.map_cons, List.mem_cons] at hu
        rcases hu with rfl | hu
        · exact h.2
        · exact fun husen => (hs u hu) (List.mem_cons_of_mem _ husen)
    · rw [if_neg h]
      exact ih seen

theorem validateSources_ok_filter (l : List Source) (out : List Source)
    (h : validateSources l = .ok out) : out = l.filter isValidHttp := by
  induction l generalizing out with
  | nil =>
    simp only [validateSources, Except.ok.injEq] at h
    simp [h.symm]
  | cons s t ih =>
    unfold validateSources at h
    by_cases ht : jtruthy s.url = true
    · rw [if_pos ht] at h
      cases hurl : s.url with
      | str u =>
        rw [hurl] at h
        try simp only [] at h
        by_cases hp : pyStartsWith "http".data u = true
        · rw [if_pos hp] at h
          cases hv : validateSources t with
          | error e => rw [hv] at h; simp at h
          | ok vt =>
            rw [hv] at h
            simp only [Except.ok.injEq] at h
            rw [List.filter_cons_of_pos (by
              have := ht; rw [hurl] at this; simp [isValidHttp, hp, this, hurl])]
            rw [← h, ih vt hv]
        · rw [if_neg hp] at h
          rw [List.filter_cons_of_neg (by simp [isValidHttp, hurl, hp])]
          exact ih out h
      | null => rw [hurl] at h; simp at h
      | bool b => rw [hurl] at h; simp at h
      | num lex => rw [hurl] at h; simp at h
      | arr el => rw [hurl] at h; simp at h
      | obj es => rw [hurl] at h; simp at h
    · rw [if_neg ht] at h
      rw [List.filter_cons_of_neg (by simp [isValidHttp, ht])]
      exact ih out h

theorem validateSources_err_of_nonstr (l : List Source) (s : Source)
    (hs : s ∈ l) (ht : jtruthy s.url = true) (hns : ∀ u, s.url ≠ .str u) :
    validateSources l = .error () := by
  induction l with
  | nil => simp at hs
  | cons x t ih =>
    unfold validateSources
    rcases List.mem_cons.mp hs with rfl | hmem
    · rw [if_pos ht]
      cases hurl : s.url with
      | str u => exact absurd hurl (hns u)
      | null => rfl
      | bool b => rfl
      | num lex => rfl
      | arr el => rfl
      | obj es => rfl
    · have hrec := ih hmem
      by_cases hx : jtruthy x.url = true
      · rw [if_pos hx]
        cases hurl : x.url with
        | str u =>
          try simp only []
          by_cases hp : pyStartsWith "http".data u = true
          · rw [if_pos hp, hrec]
          · rw [if_neg hp]
            exact hrec
        | null => rfl
        | bool b => rfl
        | num lex => rfl
        | arr el => rfl
        | obj es => rfl
      · rw [if_neg hx]
        exact hrec

/-- C4: whenever the entrypoint's source pipeline returns a list, every
entry's url is a non-empty string starting with "http", no two entries
carry equal url strings, the list is an order-preserving subsequence of
the extraction output, and each entry IS the earliest extracted source
with its url (so the first occurrence's title and project are kept). -/
theorem C4_source_pipeline (tcs : List ToolCall) (out : List Source)
    (h : sourcesPipeline tcs = .ok out) :
    (∀ s ∈ out, ∃ u, s.url = .str u ∧ u ≠ [] ∧ pyStartsWith "http".data u = true) ∧
    ((out.map (fun s => s.url)).Nodup) ∧
    out.Sublist (extractAllSources tcs) ∧
    (∀ s ∈ out, (extractAllSources tcs).find? (fun t => t.url == s.url) = some s) := by
  unfold sourcesPipeline at h
  by_cases hun : (extractAllSources tcs).any
      (fun s => jtruthy s.url && urlUnhashable s.url) = true
  · exfalso
    rw [show dedupSources (extractAllSources tcs) = extractAllSources tcs by
      unfold dedupSources; rw [if_pos hun]] at h
    rcases List.any_eq_true.mp hun with ⟨s0, hs0mem, hs0p⟩
    simp only [Bool.and_eq_true] at hs0p
    have herr : validateSources (extractAllSources tcs) = .error () := by
      refine validateSources_err_of_nonstr _ s0 hs0mem hs0p.1 ?_
      intro u heq
      have := hs0p.2
      rw [heq] at this
      simp [urlUnhashable] at this
    rw [herr] at h
    exact Except.noConfusion h
  · have hded : dedupSources (extractAllSources tcs) = dedupLoop [] (extractAllSources tcs) := by
      unfold dedupSources
      rw [if_neg hun]
    rw [hded] at h
    have hfil := validateSources_ok_filter _ _ h
    subst hfil
    refine ⟨?_, ?_, ?_, ?_⟩
    · intro s hs
      have hv : isValidHttp s = true := List.of_mem_filter hs
      unfold isValidHttp at hv
      simp only [Bool.and_eq_true] at hv
      cases hurl : s.url with
      | str u =>
        refine ⟨u, rfl, ?_, ?_⟩
        · have := hv.1
          rw [hurl] at this
          simpa [jtruthy] using this
        · have := hv.2
          rw [hurl] at this
          simpa using this
      | null => have := hv.2; rw [hurl] at this; simp at this
      | bool b => have := hv.2; rw [hurl] at this; simp at this
      | num lex => have := hv.2; rw [hurl] at this; simp at this
      | arr el => have := hv.2; rw [hurl] at this; simp at this
      | obj es => have := hv.2; rw [hurl] at this; simp at this
    · have hn := (dedupLoop_nodup (extractAllSources tcs) []).1
      have hsub : List.Sublist
          (((dedupLoop [] (extractAllSources tcs)).filter isValidHttp).map (fun s => s.url))
          ((dedupLoop [] (extractAllSources tcs)).map (fun s => s.url)) :=
        (List.filter_sublist _).map _
      exact hn.sublist hsub
    · exact (List.filter_sublist _).trans (dedupLoop_sublist (extractAllSources tcs) [])
    · intro s hs
      exact (dedupLoop_mem (extractAllSources tcs) [] s (List.mem_of_mem_filter hs)).2.2


set_option maxRecDepth 8000 in
/-- Witness for C4 at a concrete tool result with a duplicate url, an
invalid scheme and a second distinct url. -/
theorem C4_source_pipeline_witness :
    (∀ s ∈ c4Out, ∃ u, s.url = .str u ∧ u ≠ [] ∧ pyStartsWith "http".data u = true) ∧
    ((c4Out.map (fun s => s.url)).Nodup) ∧
    c4Out.Sublist (extractAllSources [c4Tool]) ∧
    (∀ s ∈ c4Out, (extractAllSources [c4Tool]).find? (fun t => t.url == s.url) = some s) :=
  C4_source_pipeline [c4Tool] c4Out (by decide)
